import Mathlib

/-!
Shallow embedding of the LocalFix issue/application/evidence/payment core
(server/controllers/issueController.js, workerController.js,
jobProofController.js, paymentController.js, config/database.js and the SQL
migrations), together with proofs settling the frozen claims about it.

Conventions:
* SQL VARCHAR status columns are embedded as `String`, so the CHECK-constraint
  vocabularies and the string literals appearing in the SQL stay visible.
* NUMERIC amounts are embedded as `Int` (NUMERIC(10,2) is exact; the claims
  only add, subtract and compare amounts).
* `CURRENT_TIMESTAMP` is passed in as a `now : Nat` argument.
* Each controller returns `Resp × DB`: the HTTP status/message it sends and
  the store state after the call.  Failed statements roll the transaction
  back, so error paths return the original store.
* JavaScript falsy checks on request fields (`!p.amount` etc.) collapse
  `undefined`, `0` and `""`; request fields are embedded as `Option` values
  and the falsy checks are embedded explicitly.
-/

namespace LocalFix

/-- HTTP response sent by a controller: `res.status(n).json({message})`. -/
structure Resp where
  status : Nat
  message : String
deriving Repr, DecidableEq

/-- Error raised by a failed SQL statement; `code` is the PostgreSQL error
code the controllers test (`23505` for a unique-constraint violation). -/
structure SqlError where
  code : String
  msg : String
deriving Repr, DecidableEq

/-- Row of `users` (001_create_users_table.sql): only the columns the core
reads — `user_id` and `user_type` ('citizen' | 'worker' | 'admin'). -/
structure User where
  user_id : Nat
  user_type : String
deriving Repr, DecidableEq

/-- Row of `issues` (DDL appended to 001_create_users_table.sql): the
columns the core reads and writes — `issue_id`, `citizen_id`, `status`,
`assigned_worker_id`. -/
structure Issue where
  issue_id : Nat
  citizen_id : Nat
  status : String
  assigned_worker_id : Option Nat
deriving Repr, DecidableEq

/-- Row of `applications` (004_create_applications_table.sql, the table with
`reviewed_by`): status CHECK is ('submitted','accepted','rejected'),
UNIQUE (issue_id, worker_id), CHECK estimated_cost > 0. -/
structure Application where
  application_id : Nat
  issue_id : Nat
  worker_id : Nat
  estimated_cost : Int
  estimated_time : String
  proposal_description : String
  status : String
  feedback : Option String
  reviewed_by : Option Nat
  reviewed_at : Option Nat
deriving Repr, DecidableEq

/-- Row of `issue_proofs` (DDL appended to 007_create_ratings_table.sql):
columns used by jobProofController (`proof_id`, `issue_id`, `worker_id`,
`verification_status` with CHECK 'pending' | 'approved' | 'rejected',
`admin_feedback`, `verified_by`, `verified_at`; UNIQUE (issue_id)). -/
structure IssueProof where
  proof_id : Nat
  issue_id : Nat
  worker_id : Nat
  verification_status : String
  admin_feedback : Option String
  verified_by : Option Nat
  verified_at : Option Nat
deriving Repr, DecidableEq

/-- Row of `payments` (006_create_payments_table.sql): UNIQUE (issue_id),
CHECK amount > 0, payment_status CHECK
('pending','processing','completed','failed','refunded'). -/
structure Payment where
  issue_id : Nat
  citizen_id : Nat
  worker_id : Nat
  amount : Int
  payment_method : String
  payment_status : String
  transaction_id : String
deriving Repr, DecidableEq

/-- Row of `withdrawals` (008_create_withdrawals_table.sql): status CHECK
('processing','successful','failed'), CHECK amount > 0, method CHECK
('bkash','nagad','rocket','sonali_bank'). -/
structure Withdrawal where
  worker_id : Nat
  method : String
  account_number : String
  amount : Int
  status : String
deriving Repr, DecidableEq

/-- The relational store. -/
structure DB where
  users : List User
  issues : List Issue
  applications : List Application
  issue_proofs : List IssueProof
  payments : List Payment
  withdrawals : List Withdrawal
deriving Repr, DecidableEq

/-- The seven issue statuses (the `validStatuses` array of
`updateIssueStatus` in issueController.js; §4.1 of the spec). -/
def validIssueStatuses : List String :=
  ["submitted", "applied", "assigned", "in_progress", "under_review", "resolved", "closed"]

/-- The application statuses allowed by the CHECK constraint of
004_create_applications_table.sql. -/
def validApplicationStatuses : List String :=
  ["submitted", "accepted", "rejected"]

/-- Payment methods allowed by the CHECK of 006_create_payments_table.sql. -/
def validPaymentMethods : List String :=
  ["cash", "bkash", "nagad", "rocket", "bank_transfer", "card"]

/-- Withdrawal methods: both the controller's `methods` array in
`createWithdrawal` and the CHECK of 008_create_withdrawals_table.sql. -/
def withdrawalMethods : List String :=
  ["bkash", "nagad", "rocket", "sonali_bank"]

/-- JavaScript `String.prototype.trim`, embedded structurally over the
character list (so that concrete calls evaluate inside the kernel). -/
def strTrim (s : String) : String :=
  ⟨((s.data.dropWhile Char.isWhitespace).reverse.dropWhile Char.isWhitespace).reverse⟩

/-! ### Row-level triggers on `applications` (004_create_applications_table.sql) -/

/-- The reviewer validation inside `trg_applications_reviewed_at`: true when
the trigger raises, i.e. `reviewed_by` is set and names a user whose
`user_type` is not 'admin'.  `SELECT ... INTO` on a missing user leaves
`admin_type` NULL, and `NULL != 'admin'` is not true in SQL, so a missing
reviewer raises nothing. -/
def reviewerNotAdmin (db : DB) (reviewer : Option Nat) : Bool :=
  match reviewer with
  | some uid =>
    match db.users.find? (fun u => u.user_id = uid) with
    | some u => u.user_type ≠ "admin"
    | none => false
  | none => false

/-- BEFORE UPDATE OF status trigger `trg_applications_reviewed_at`: when the
new status is 'accepted' or 'rejected', validate that `reviewed_by` (when
set) is an admin, and stamp `reviewed_at`. -/
def trgApplicationsReviewedAt (db : DB) (now : Nat) (newRow : Application) :
    Except SqlError Application :=
  if newRow.status = "accepted" ∨ newRow.status = "rejected" then
    if reviewerNotAdmin db newRow.reviewed_by then
      .error ⟨"P0001", "Only admins can review applications"⟩
    else
      .ok { newRow with reviewed_at := some now }
  else
    .ok newRow

/-- Condition of the cascade UPDATE inside `trg_applications_status_update`:
`issue_id = NEW.issue_id AND application_id != NEW.application_id AND status
IN ('submitted', 'under_review')`. -/
def rivalCond (iid aid : Nat) (r : Application) : Bool :=
  r.issue_id = iid ∧ r.application_id ≠ aid ∧
    (r.status = "submitted" ∨ r.status = "under_review")

/-- AFTER UPDATE OF status trigger `trg_applications_status_update`: when a
row's status becomes 'accepted' (from a different status), set the issue to
'assigned' with `assigned_worker_id = NEW.worker_id`, and reject every other
application on the same issue whose status is in ('submitted','under_review')
(`SET status='rejected', reviewed_at=CURRENT_TIMESTAMP,
reviewed_by=NEW.reviewed_by`).  That cascade UPDATE itself fires
`trg_applications_reviewed_at` on each matched row — raising when
`NEW.reviewed_by` is a non-admin and a row matches — while its own AFTER
trigger is a no-op because the cascaded status is 'rejected'. -/
def trgApplicationsStatusUpdate (db : DB) (now : Nat) (oldStatus : String)
    (newRow : Application) : Except SqlError DB :=
  if newRow.status = "accepted" ∧ oldStatus ≠ "accepted" then
    if db.applications.any (rivalCond newRow.issue_id newRow.application_id) ∧
        reviewerNotAdmin db newRow.reviewed_by then
      .error ⟨"P0001", "Only admins can review applications"⟩
    else
      .ok { db with
        issues := db.issues.map (fun i =>
          if i.issue_id = newRow.issue_id then
            { i with status := "assigned", assigned_worker_id := some newRow.worker_id }
          else i)
        applications := db.applications.map (fun r =>
          if rivalCond newRow.issue_id newRow.application_id r then
            { r with
              status := "rejected"
              reviewed_by := newRow.reviewed_by
              reviewed_at := some now }
          else r) }
  else
    .ok db

/-! ### acceptIssueApplication (issueController.js:578-683) -/

/-- First statement of the accept transaction: `UPDATE applications SET
status='accepted', feedback=$1, reviewed_by=$2, reviewed_at=CURRENT_TIMESTAMP
WHERE application_id=$3 AND issue_id=$4`, with its BEFORE and AFTER triggers.
`application_id` is the primary key, so at most one row matches. -/
def sqlUpdateApplicationAccept (db : DB) (now : Nat) (feedback : Option String)
    (admin_id application_id issue_id : Nat) : Except SqlError (DB × Nat) :=
  match db.applications.find? (fun a =>
      a.application_id = application_id ∧ a.issue_id = issue_id) with
  | none => .ok (db, 0)
  | some old =>
    match trgApplicationsReviewedAt db now
        { old with
          status := "accepted"
          feedback := feedback
          reviewed_by := some admin_id } with
    | .error e => .error e
    | .ok newRow =>
      match trgApplicationsStatusUpdate
          { db with applications := db.applications.map (fun a =>
              if a.application_id = application_id ∧ a.issue_id = issue_id then newRow
              else a) }
          now old.status newRow with
      | .error e => .error e
      | .ok db2 => .ok (db2, 1)

/-- Second statement of the accept transaction: `UPDATE issues SET
assigned_worker_id=$1, status='assigned' WHERE issue_id=$2`. -/
def sqlAssignIssue (db : DB) (worker_id issue_id : Nat) : DB :=
  { db with issues := db.issues.map (fun i =>
      if i.issue_id = issue_id then
        { i with status := "assigned", assigned_worker_id := some worker_id }
      else i) }

/-- Third statement of the accept transaction: `UPDATE applications SET
status='rejected', feedback='Application rejected due to another worker being
selected', reviewed_by=$1, reviewed_at=CURRENT_TIMESTAMP WHERE issue_id=$2 AND
application_id != $3 AND status IN ('applied', 'under_review')` — the status
list is copied verbatim from the source; the applications CHECK constraint
only admits 'submitted', 'accepted' and 'rejected'. -/
def staleStatusCond (iid aid : Nat) (r : Application) : Bool :=
  r.issue_id = iid ∧ r.application_id ≠ aid ∧
    (r.status = "applied" ∨ r.status = "under_review")

/-- Effect of the third statement (the WHERE clause is `staleStatusCond`; the
per-row BEFORE trigger raises when the reviewer is a non-admin and a row
matches; the AFTER trigger is a no-op for 'rejected'). -/
def sqlRejectOtherApplications (db : DB) (now : Nat)
    (admin_id issue_id application_id : Nat) : Except SqlError DB :=
  if db.applications.any (staleStatusCond issue_id application_id) ∧
      reviewerNotAdmin db (some admin_id) then
    .error ⟨"P0001", "Only admins can review applications"⟩
  else
    .ok { db with applications := db.applications.map (fun r =>
      if staleStatusCond issue_id application_id r then
        { r with
          status := "rejected"
          feedback := some "Application rejected due to another worker being selected"
          reviewed_by := some admin_id
          reviewed_at := some now }
      else r) }

/-- The three-statement transaction of `acceptIssueApplication`, run through
`executeMultipleQueries` (config/database.js): BEGIN, the statements in order,
COMMIT; any statement error rolls the whole transaction back. -/
def txAcceptApplication (db : DB) (now : Nat) (feedback : Option String)
    (admin_id application_id issue_id worker_id : Nat) : Except SqlError (DB × Nat) :=
  match sqlUpdateApplicationAccept db now feedback admin_id application_id issue_id with
  | .error e => .error e
  | .ok (db1, rc1) =>
    match sqlRejectOtherApplications (sqlAssignIssue db1 worker_id issue_id)
        now admin_id issue_id application_id with
    | .error e => .error e
    | .ok db3 => .ok (db3, rc1)

/-- Embedding of `acceptIssueApplication` (issueController.js:578-683): check
the application exists and is 'submitted', then run the transaction. -/
def acceptIssueApplication (db : DB) (now : Nat) (issue_id application_id admin_id : Nat)
    (feedback : Option String) : Resp × DB :=
  match db.applications.find? (fun a =>
      a.application_id = application_id ∧ a.issue_id = issue_id) with
  | none => (⟨404, "Application not found"⟩, db)
  | some app =>
    if app.status = "accepted" then
      (⟨400, "Application already accepted"⟩, db)
    else if app.status ≠ "submitted" then
      (⟨400, "Cannot accept application. Application must be submitted."⟩, db)
    else
      match txAcceptApplication db now feedback admin_id application_id issue_id app.worker_id with
      | .error e => (⟨500, e.msg⟩, db)
      | .ok (db3, rc1) =>
        if rc1 = 0 then
          (⟨404, "Application not found or already processed"⟩, db3)
        else
          (⟨200, "Application accepted successfully! Issue has been assigned to the worker."⟩, db3)

/-! ### applyForIssue (issueController.js:381-475) -/

/-- BEFORE INSERT trigger `trg_applications_insert_validate`: the applicant
must be a worker and the issue must be open ('submitted' or 'applied').
`SELECT ... INTO` on a missing row leaves the variable NULL and the SQL
comparisons with NULL are not true, so missing rows raise nothing here (the
foreign keys catch them instead). -/
def trgApplicationsInsertValidate (db : DB) (newRow : Application) :
    Except SqlError Unit :=
  if (db.users.find? (fun u => u.user_id = newRow.worker_id)).any
      (fun u => u.user_type ≠ "worker") then
    .error ⟨"P0001", "Only workers can submit applications"⟩
  else if (db.issues.find? (fun i => i.issue_id = newRow.issue_id)).any
      (fun i => ¬ (i.status = "submitted" ∨ i.status = "applied")) then
    .error ⟨"P0001", "Issue is not open for applications"⟩
  else
    .ok ()

/-- Next value of the `application_id` SERIAL. -/
def nextApplicationId (db : DB) : Nat :=
  (db.applications.map (fun a => a.application_id)).foldr max 0 + 1

/-- The row inserted by `INSERT INTO applications (issue_id, worker_id,
estimated_cost, estimated_time, proposal_description) VALUES (...)`, with the
DEFAULT status 'submitted' and NULL review columns. -/
def newApplicationRow (db : DB) (issue_id worker_id : Nat) (cost : Int)
    (time proposal : String) : Application :=
  { application_id := nextApplicationId db
    issue_id := issue_id
    worker_id := worker_id
    estimated_cost := cost
    estimated_time := time
    proposal_description := proposal
    status := "submitted"
    feedback := none
    reviewed_by := none
    reviewed_at := none }

/-- The INSERT statement body: BEFORE INSERT trigger, then the table
constraints in order (unique pair → 23505, foreign keys → 23503, cost CHECK
→ 23514), then the row append. -/
def sqlInsertApplication (db : DB) (issue_id worker_id : Nat) (cost : Int)
    (time proposal : String) : Except SqlError DB :=
  match trgApplicationsInsertValidate db
      (newApplicationRow db issue_id worker_id cost time proposal) with
  | .error e => .error e
  | .ok _ =>
    if db.applications.any (fun a => a.issue_id = issue_id ∧ a.worker_id = worker_id) then
      .error ⟨"23505", "duplicate key value violates unique constraint uk_applications_issue_worker"⟩
    else if ¬ db.issues.any (fun i => i.issue_id = issue_id) then
      .error ⟨"23503", "violates foreign key constraint fk_applications_issue"⟩
    else if ¬ db.users.any (fun u => u.user_id = worker_id) then
      .error ⟨"23503", "violates foreign key constraint fk_applications_worker"⟩
    else if ¬ (0 < cost) then
      .error ⟨"23514", "violates check constraint chk_applications_cost"⟩
    else
      .ok { db with applications := db.applications ++
        [newApplicationRow db issue_id worker_id cost time proposal] }

/-- `UPDATE issues SET status = 'applied' WHERE issue_id = $1`. -/
def sqlSetIssueApplied (db : DB) (issue_id : Nat) : DB :=
  { db with issues := db.issues.map (fun i =>
      if i.issue_id = issue_id then { i with status := "applied" } else i) }

/-- Embedding of `applyForIssue` (issueController.js:381-475).  Request
fields arrive as JavaScript values; the `!estimated_cost` falsy test fires on
a missing field and on 0 alike, so the three fields are embedded as given
values with the falsy checks written out (`cost = 0`, empty strings). -/
def applyForIssue (db : DB) (issue_id worker_id : Nat) (estimated_cost : Int)
    (estimated_time proposal_description : String) : Resp × DB :=
  if estimated_cost = 0 ∨ estimated_time = "" ∨ proposal_description = "" then
    (⟨400, "Missing required fields: estimated_cost, estimated_time, proposal_description"⟩, db)
  else if estimated_cost ≤ 0 then
    (⟨400, "Estimated cost must be greater than 0"⟩, db)
  else if (strTrim proposal_description) = "" then
    (⟨400, "Proposal description cannot be empty"⟩, db)
  else
    match db.issues.find? (fun i => i.issue_id = issue_id) with
    | none => (⟨404, "Issue not found"⟩, db)
    | some issue =>
      if ¬ (issue.status = "submitted" ∨ issue.status = "applied") then
        (⟨400, "Issue is not available for applications."⟩, db)
      else if db.applications.any (fun a => a.issue_id = issue_id ∧ a.worker_id = worker_id) then
        (⟨409, "You have already applied for this issue"⟩, db)
      else
        -- transaction: INSERT, then (if the issue was 'submitted') the UPDATE
        match sqlInsertApplication db issue_id worker_id estimated_cost
            (strTrim estimated_time) (strTrim proposal_description) with
        | .error e =>
          if e.code = "23505" then
            (⟨409, "You have already applied for this issue"⟩, db)
          else
            (⟨500, e.msg⟩, db)
        | .ok db1 =>
          let db2 := if issue.status = "submitted" then sqlSetIssueApplied db1 issue_id else db1
          (⟨201, "Application submitted successfully!"⟩, db2)

/-! ### rejectIssueApplication (issueController.js:686-771) -/

/-- Embedding of `rejectIssueApplication`: feedback required, target must be
'submitted'; the UPDATE runs the BEFORE trigger (reviewer must be an admin)
and the AFTER trigger is a no-op for 'rejected'. -/
def rejectIssueApplication (db : DB) (now : Nat) (issue_id application_id admin_id : Nat)
    (feedback : String) : Resp × DB :=
  if (strTrim feedback) = "" then
    (⟨400, "Feedback is required when rejecting an application"⟩, db)
  else
    match db.applications.find? (fun a =>
        a.application_id = application_id ∧ a.issue_id = issue_id) with
    | none => (⟨404, "Application not found"⟩, db)
    | some app =>
      if app.status = "rejected" then
        (⟨400, "Application is already rejected"⟩, db)
      else if app.status = "accepted" then
        (⟨400, "Cannot reject an accepted application"⟩, db)
      else if app.status ≠ "submitted" then
        (⟨400, "Cannot reject application. Application must be submitted."⟩, db)
      else
        match trgApplicationsReviewedAt db now
            { app with
              status := "rejected"
              feedback := some (strTrim feedback)
              reviewed_by := some admin_id } with
        | .error e => (⟨500, e.msg⟩, db)
        | .ok newRow =>
          (⟨200, "Application rejected successfully!"⟩,
            { db with applications := db.applications.map (fun a =>
                if a.application_id = application_id ∧ a.issue_id = issue_id then newRow
                else a) })

/-! ### Direct issue updates (issueController.js:174-253) and createIssue -/

/-- Embedding of `updateIssueStatus` (issueController.js:174-209): the status
must be one of the seven values; then `UPDATE issues SET status = $1 WHERE
issue_id = $2` with no transition validation. -/
def updateIssueStatus (db : DB) (issue_id : Nat) (status : String) : Resp × DB :=
  if ¬ status ∈ validIssueStatuses then
    (⟨400, "Invalid status."⟩, db)
  else if ¬ db.issues.any (fun i => i.issue_id = issue_id) then
    (⟨404, "Issue not found"⟩, db)
  else
    (⟨200, "Issue status updated successfully!"⟩,
      { db with issues := db.issues.map (fun i =>
          if i.issue_id = issue_id then { i with status := status } else i) })

/-- Embedding of `updateIssue` (issueController.js:211-253), restricted to
the `status` field (the only updatable field present in this model of the
issues row).  The controller itself performs no validation of the value; the
CHECK constraint of the issues DDL (appended to 001_create_users_table.sql)
fixes the seven status values, so a value outside the seven makes the UPDATE
fail and changes nothing. -/
def updateIssue (db : DB) (issue_id : Nat) (status : Option String) : Resp × DB :=
  match status with
  | none => (⟨400, "No fields provided to update"⟩, db)
  | some s =>
    if ¬ db.issues.any (fun i => i.issue_id = issue_id) then
      (⟨404, "Issue not found"⟩, db)
    else if ¬ s ∈ validIssueStatuses then
      (⟨500, "violates check constraint on issues.status"⟩, db)
    else
      (⟨200, "Issue updated successfully!"⟩,
        { db with issues := db.issues.map (fun i =>
            if i.issue_id = issue_id then { i with status := s } else i) })

/-- Next value of the `issue_id` SERIAL. -/
def nextIssueId (db : DB) : Nat :=
  (db.issues.map (fun i => i.issue_id)).foldr max 0 + 1

/-- Embedding of the issue insert inside `createIssue`
(issueController.js:11-75), restricted to the columns of this model.  The
status column takes its DEFAULT 'submitted' from the issues DDL (appended to
001_create_users_table.sql). -/
def createIssue (db : DB) (citizen_id : Nat) : Resp × DB :=
  (⟨201, "Issue submitted successfully!"⟩,
    { db with issues := db.issues ++
        [{ issue_id := nextIssueId db
           citizen_id := citizen_id
           status := "submitted"
           assigned_worker_id := none }] })

/-! ### deleteApplication (workerController.js:277-401) -/

/-- A JavaScript value read out of a query result row.  node-postgres parses
`COUNT(*)` (int8) as a string — config/database.js installs no type parser —
so the `app_count` column of `deleteApplication` arrives as `.str`. -/
inductive JsVal where
  | num (n : Nat)
  | str (s : String)
deriving Repr, DecidableEq

/-- JavaScript `v || 0`: the number 0 and the empty string are falsy. -/
def jsOrZero : JsVal → JsVal
  | .num 0 => .num 0
  | .str s => if s = "" then .num 0 else .str s
  | v => v

/-- JavaScript `v === 0`: strict equality, true only for the number 0. -/
def jsStrictEqZero : JsVal → Bool
  | .num 0 => true
  | _ => false

/-- Embedding of `deleteApplication` (workerController.js:277-401).  The
`app_count` aggregate comes back from the driver as a string, and the
controller compares it with `=== 0` after `|| 0`. -/
def deleteApplication (db : DB) (issue_id worker_id : Nat) : Resp × DB :=
  match db.applications.find? (fun a =>
      a.issue_id = issue_id ∧ a.worker_id = worker_id) with
  | none => (⟨404, "Application not found"⟩, db)
  | some app =>
    if app.status ≠ "rejected" then
      (⟨400, "Only rejected applications can be deleted."⟩, db)
    else
      let appCountRow : JsVal := .str (toString (db.applications.countP (fun a =>
        a.issue_id = issue_id ∧ a.worker_id ≠ worker_id ∧ a.status ≠ "rejected")))
      let otherActiveApps := jsOrZero appCountRow
      -- transaction: the DELETE, plus the issue UPDATE only when the strict
      -- equality with the number 0 holds
      let db1 : DB := { db with applications := db.applications.filter (fun a =>
        ¬ (a.issue_id = issue_id ∧ a.worker_id = worker_id ∧ a.status = "rejected")) }
      let db2 :=
        if jsStrictEqZero otherActiveApps then
          { db1 with issues := db1.issues.map (fun i =>
              if i.issue_id = issue_id ∧ i.status = "applied" then
                { i with status := "submitted" }
              else i) }
        else db1
      let deletedCount := db.applications.countP (fun a =>
        a.issue_id = issue_id ∧ a.worker_id = worker_id ∧ a.status = "rejected")
      if deletedCount = 0 then
        (⟨400, "Application could not be deleted. It may have been already processed."⟩, db2)
      else
        (⟨200, "Rejected application deleted successfully!"⟩, db2)

/-! ### Evidence (jobProofController.js) -/

/-- Embedding of `trg_proof_verified_after` (the issue_proofs DDL appended
to 007_create_ratings_table.sql; AFTER UPDATE OF verification_status): the
verified row's new status 'approved' moves the issue to 'resolved', and
'rejected' moves it back to 'in_progress'; any other status leaves the
issues table alone.  (`trg_proof_verified`, BEFORE the same UPDATE, stamps
verified_at — the controllers also set it explicitly in the same UPDATE, so
the row embeddings carry the timestamp directly.) -/
def trgProofVerified (db : DB) (p : IssueProof) : DB :=
  if p.verification_status = "approved" then
    { db with issues := db.issues.map (fun i =>
        if i.issue_id = p.issue_id then { i with status := "resolved" } else i) }
  else if p.verification_status = "rejected" then
    { db with issues := db.issues.map (fun i =>
        if i.issue_id = p.issue_id then { i with status := "in_progress" } else i) }
  else db

/-- Embedding of `trg_proof_verified_admin_check` (issue_proofs DDL in
007_create_ratings_table.sql; BEFORE UPDATE OF verified_by): when the
updated row carries a reviewer id, a users row with that id and a user_type
other than 'admin' raises "Only admins can verify issue proofs".  A lookup
miss leaves admin_type NULL, so `admin_type != 'admin'` is unknown and the
trigger does not raise (SQL NULL semantics); the missing reviewer is instead
stopped by `fkProofsVerifiedBy` below. -/
def trgProofVerifiedAdminCheck (db : DB) (p : IssueProof) : Except SqlError Unit :=
  match p.verified_by with
  | none => .ok ()
  | some uid =>
    match db.users.find? (fun u => u.user_id = uid) with
    | none => .ok ()
    | some u =>
      if u.user_type ≠ "admin" then
        .error ⟨"P0001", "Only admins can verify issue proofs"⟩
      else .ok ()

/-- The foreign key `fk_proofs_verified_by REFERENCES users(user_id)`: a
reviewer id absent from users fails the UPDATE writing it. -/
def fkProofsVerifiedBy (db : DB) (p : IssueProof) : Except SqlError Unit :=
  match p.verified_by with
  | none => .ok ()
  | some uid =>
    if db.users.any (fun u => u.user_id = uid) then .ok ()
    else .error ⟨"23503", "fk_proofs_verified_by"⟩

/-- Embedding of the raises of `trg_proof_submitted` (issue_proofs DDL in
007_create_ratings_table.sql; BEFORE INSERT) as they stand at the
controller's INSERT: a users row with the submitting id and a user_type
other than 'worker' raises "Only workers can submit issue proofs"; a lookup
miss leaves worker_type NULL so the trigger passes, and the insert then
fails the foreign key fk_proofs_worker instead — either way the statement
errors.  The trigger's other two raises (worker not assigned to the issue,
issue status outside assigned/in_progress) repeat conditions the controller
has already answered with 403/400 before reaching the INSERT. -/
def trgProofSubmittedCheck (db : DB) (p : IssueProof) : Except SqlError Unit :=
  match db.users.find? (fun u => u.user_id = p.worker_id) with
  | none => .error ⟨"23503", "fk_proofs_worker"⟩
  | some u =>
    if u.user_type ≠ "worker" then
      .error ⟨"P0001", "Only workers can submit issue proofs"⟩
    else .ok ()

/-- Embedding of the issue update of `trg_proof_submitted` (issue_proofs DDL
in 007_create_ratings_table.sql; BEFORE INSERT): inserting a proof drives
its issue to 'under_review'. -/
def trgProofSubmitted (db : DB) (p : IssueProof) : DB :=
  { db with issues := db.issues.map (fun i =>
      if i.issue_id = p.issue_id then { i with status := "under_review" } else i) }

/-- Next value of the `proof_id` SERIAL. -/
def nextProofId (db : DB) : Nat :=
  (db.issue_proofs.map (fun p => p.proof_id)).foldr max 0 + 1

/-- Embedding of `submitProof` (jobProofController.js:12-88), with the file
upload out of scope (the photo reference is an opaque string). -/
def submitProof (db : DB) (worker_id issue_id : Nat) : Resp × DB :=
  match db.issues.find? (fun i => i.issue_id = issue_id) with
  | none => (⟨404, "Issue not found."⟩, db)
  | some issue =>
    if issue.assigned_worker_id ≠ some worker_id then
      (⟨403, "You are not assigned to this issue."⟩, db)
    else if ¬ (issue.status = "assigned" ∨ issue.status = "in_progress") then
      (⟨400, "Cannot submit proof for an issue with this status."⟩, db)
    else if db.issue_proofs.any (fun p => p.issue_id = issue_id) then
      (⟨400, "Proof has already been submitted for this issue."⟩, db)
    else
      let newRow : IssueProof :=
        { proof_id := nextProofId db
          issue_id := issue_id
          worker_id := worker_id
          verification_status := "pending"
          admin_feedback := none
          verified_by := none
          verified_at := none }
      match trgProofSubmittedCheck db newRow with
      | .error _ => (⟨500, "Failed to submit proof"⟩, db)
      | .ok _ =>
        let db1 : DB := { db with issue_proofs := db.issue_proofs ++ [newRow] }
        (⟨201, "Proof submitted successfully! The issue is now under review."⟩,
          trgProofSubmitted db1 newRow)

/-- Embedding of `updateProofProgress` (jobProofController.js:146-178):
`UPDATE issues SET status='in_progress' WHERE issue_id=$1 AND
assigned_worker_id=$2 AND status='assigned'`. -/
def updateProofProgress (db : DB) (worker_id issue_id : Nat) : Resp × DB :=
  let matched := db.issues.countP (fun i =>
    i.issue_id = issue_id ∧ i.assigned_worker_id = some worker_id ∧ i.status = "assigned")
  let db1 : DB := { db with issues := db.issues.map (fun i =>
    if i.issue_id = issue_id ∧ i.assigned_worker_id = some worker_id ∧
        i.status = "assigned" then
      { i with status := "in_progress" }
    else i) }
  if matched = 0 then
    (⟨400, "Cannot update progress."⟩, db1)
  else
    (⟨200, "Issue marked as in progress successfully!"⟩, db1)

/-- Embedding of `approveProof` (jobProofController.js:238-280): the proof
must exist and be 'pending'; the UPDATE sets verification_status='approved',
admin_feedback, verified_by and verified_at.  Writing verified_by fires
`trg_proof_verified_admin_check` (and checks fk_proofs_verified_by): a
non-admin reviewer makes the statement error, `result.success` false and the
controller answer 500 with nothing written; otherwise the AFTER trigger
moves the issue to 'resolved'. -/
def approveProof (db : DB) (now : Nat) (proof_id admin_id : Nat)
    (feedback : Option String) : Resp × DB :=
  match db.issue_proofs.find? (fun p => p.proof_id = proof_id) with
  | none => (⟨404, "Proof not found"⟩, db)
  | some p =>
    if p.verification_status ≠ "pending" then
      (⟨400, "Cannot approve a proof in this status."⟩, db)
    else
      let newRow : IssueProof :=
        { p with
          verification_status := "approved"
          admin_feedback := feedback
          verified_by := some admin_id
          verified_at := some now }
      match trgProofVerifiedAdminCheck db newRow with
      | .error _ => (⟨500, "Failed to approve proof"⟩, db)
      | .ok _ =>
        match fkProofsVerifiedBy db newRow with
        | .error _ => (⟨500, "Failed to approve proof"⟩, db)
        | .ok _ =>
          let db1 : DB := { db with issue_proofs := db.issue_proofs.map (fun q =>
            if q.proof_id = proof_id then newRow else q) }
          (⟨200, "Proof approved successfully"⟩, trgProofVerified db1 newRow)

/-- Embedding of `rejectProof` (jobProofController.js:283-328): feedback is
required and non-blank; the proof must exist and be 'pending'; the UPDATE
sets verification_status='rejected' with feedback, reviewer and timestamp.
As in `approveProof`, writing verified_by fires
`trg_proof_verified_admin_check` (and checks fk_proofs_verified_by), so a
non-admin reviewer gets a 500 with nothing written; otherwise the AFTER
trigger moves the issue to 'in_progress'. -/
def rejectProof (db : DB) (now : Nat) (proof_id admin_id : Nat)
    (feedback : String) : Resp × DB :=
  if (strTrim feedback) = "" then
    (⟨400, "Feedback is required when rejecting a proof"⟩, db)
  else
    match db.issue_proofs.find? (fun p => p.proof_id = proof_id) with
    | none => (⟨404, "Proof not found"⟩, db)
    | some p =>
      if p.verification_status ≠ "pending" then
        (⟨400, "Cannot reject a proof in this status."⟩, db)
      else
        let newRow : IssueProof :=
          { p with
            verification_status := "rejected"
            admin_feedback := some (strTrim feedback)
            verified_by := some admin_id
            verified_at := some now }
        match trgProofVerifiedAdminCheck db newRow with
        | .error _ => (⟨500, "Failed to reject proof"⟩, db)
        | .ok _ =>
          match fkProofsVerifiedBy db newRow with
          | .error _ => (⟨500, "Failed to reject proof"⟩, db)
          | .ok _ =>
            let db1 : DB := { db with issue_proofs := db.issue_proofs.map (fun q =>
              if q.proof_id = proof_id then newRow else q) }
            (⟨200, "Proof rejected successfully with feedback"⟩, trgProofVerified db1 newRow)

/-! ### Payments (paymentController.js — createPayments, getWorkerSummary,
createWithdrawal) -/

/-- One element of the `payments` request array of `createPayments`:
`{ issueId, proofId, workerId, citizenId, amount, method }` (proofId is never
read).  Fields a client may omit are `Option`; the controller's `!p.field`
falsy tests also fire on the number 0, embedded in `jsFalsyNat` /
`jsFalsyInt`. -/
structure PaymentItem where
  issueId : Option Nat
  workerId : Option Nat
  citizenId : Option Nat
  amount : Option Int
  method : Option String
deriving Repr, DecidableEq

/-- JavaScript `!p.field` for an optional numeric field: true when the field
is absent or 0. -/
def jsFalsyNat : Option Nat → Bool
  | none => true
  | some 0 => true
  | some _ => false

/-- JavaScript `!p.amount` for the amount: absent or 0. -/
def jsFalsyInt : Option Int → Bool
  | none => true
  | some a => a = 0

/-- AFTER INSERT/UPDATE trigger `trg_payment_completed`
(006_create_payments_table.sql): when the payment status is 'completed', set
the issue's status to 'closed'. -/
def trgPaymentCompleted (db : DB) (p : Payment) : DB :=
  if p.payment_status = "completed" then
    { db with issues := db.issues.map (fun i =>
        if i.issue_id = p.issue_id then { i with status := "closed" } else i) }
  else db

/-- The row inserted by `INSERT INTO payments (...) VALUES (..., 'completed',
txid, CURRENT_TIMESTAMP)`.  The `transaction_id` the controller passes is
always non-NULL, so `trg_payments_set_tx` leaves it unchanged. -/
def newPaymentRow (iid cid wid : Nat) (amt : Int) (method txid : String) : Payment :=
  { issue_id := iid
    citizen_id := cid
    worker_id := wid
    amount := amt
    payment_method := method
    payment_status := "completed"
    transaction_id := txid }

/-- The INSERT statement body for one payment: the table constraints in
order (unique issue → 23505, foreign keys → 23503, amount and method CHECKs
→ 23514), the row append, then the completed-payment trigger. -/
def sqlInsertPayment (db : DB) (iid cid wid : Nat) (amt : Int) (method txid : String) :
    Except SqlError DB :=
  if db.payments.any (fun p => p.issue_id = iid) then
    .error ⟨"23505", "duplicate key value violates unique constraint uk_payments_issue"⟩
  else if ¬ db.issues.any (fun i => i.issue_id = iid) then
    .error ⟨"23503", "violates foreign key constraint fk_payments_issue"⟩
  else if ¬ db.users.any (fun u => u.user_id = cid) then
    .error ⟨"23503", "violates foreign key constraint fk_payments_citizen"⟩
  else if ¬ db.users.any (fun u => u.user_id = wid) then
    .error ⟨"23503", "violates foreign key constraint fk_payments_worker"⟩
  else if ¬ (0 < amt) then
    .error ⟨"23514", "violates check constraint chk_payments_amount"⟩
  else if ¬ method ∈ validPaymentMethods then
    .error ⟨"23514", "violates check constraint on payment_method"⟩
  else
    .ok (trgPaymentCompleted
      { db with payments := db.payments ++ [newPaymentRow iid cid wid amt method txid] }
      (newPaymentRow iid cid wid amt method txid))

/-- The loop body of `createPayments` over the remaining items.  `db0` is the
state at BEGIN (restored by ROLLBACK), `cur` the in-transaction state, `k`
the index used to render the generated `'TX-' + Date.now() + '-' + random`
identifier through `txGen`. -/
def createPaymentsGo (db0 : DB) (txGen : Nat → String) :
    DB → List PaymentItem → Nat → Resp × DB
  | cur, [], _ => (⟨201, "Payments processed successfully"⟩, cur)
  | cur, p :: rest, k =>
    if jsFalsyNat p.issueId ∨ jsFalsyNat p.workerId ∨ jsFalsyNat p.citizenId ∨
        jsFalsyInt p.amount then
      (⟨400, "Missing fields in payment item"⟩, db0)
    else
      match sqlInsertPayment cur (p.issueId.getD 0) (p.citizenId.getD 0) (p.workerId.getD 0)
          (p.amount.getD 0) (p.method.getD "bkash") (txGen k) with
      | .error e => (⟨500, "Failed to process payments: " ++ e.msg⟩, db0)
      | .ok cur1 => createPaymentsGo db0 txGen cur1 rest (k + 1)

/-- Embedding of `createPayments` (paymentController.js:63-110): BEGIN, then
for each item check the required fields (ROLLBACK and 400 on a missing one)
and insert the payment as 'completed' (any insert error is caught, ROLLBACK,
500); COMMIT at the end. -/
def createPayments (db : DB) (txGen : Nat → String) (payments : List PaymentItem) :
    Resp × DB :=
  if payments.isEmpty then
    (⟨400, "No payments provided"⟩, db)
  else
    createPaymentsGo db txGen db payments 0

/-- `SELECT COALESCE(SUM(CASE WHEN payment_status = 'completed' THEN amount
END), 0) FROM payments WHERE worker_id = $1` — used by both
`getWorkerSummary` (total_earnings) and `createWithdrawal`. -/
def sqlTotalEarnings (db : DB) (worker_id : Nat) : Int :=
  ((db.payments.filter (fun p => p.worker_id = worker_id)).map (fun p =>
    if p.payment_status = "completed" then p.amount else 0)).sum

/-- `SELECT COALESCE(SUM(CASE WHEN status IN ('successful','processing') THEN
amount END), 0) FROM withdrawals WHERE worker_id = $1`. -/
def sqlWithdrawnTotal (db : DB) (worker_id : Nat) : Int :=
  ((db.withdrawals.filter (fun w => w.worker_id = worker_id)).map (fun w =>
    if w.status = "successful" ∨ w.status = "processing" then w.amount else 0)).sum

/-- The `currentBalance` computed by `getWorkerSummary`
(paymentController.js:113-172): `Math.max(0, totalEarnings - withdrawn)`. -/
def getWorkerSummaryCurrentBalance (db : DB) (worker_id : Nat) : Int :=
  max 0 (sqlTotalEarnings db worker_id - sqlWithdrawnTotal db worker_id)

/-- The `available` value computed inside `createWithdrawal`
(paymentController.js:188-201): the same two sums and the same clamp. -/
def createWithdrawalAvailable (db : DB) (worker_id : Nat) : Int :=
  max 0 (sqlTotalEarnings db worker_id - sqlWithdrawnTotal db worker_id)

/-- `INSERT INTO withdrawals (worker_id, method, account_number, amount,
status, requested_at) VALUES (..., 'processing', CURRENT_TIMESTAMP)`. -/
def sqlInsertWithdrawal (db : DB) (worker_id : Nat) (method accountNumber : String)
    (amt : Int) : DB :=
  { db with withdrawals := db.withdrawals ++
      [{ worker_id := worker_id
         method := method
         account_number := accountNumber
         amount := amt
         status := "processing" }] }

/-- Embedding of `createWithdrawal` (paymentController.js:175-219).  The
balance reads and the insert are separate `executeQuery` calls on pooled
connections — there is no BEGIN/COMMIT around them; this function is their
effect when the call runs without interleaved writers (see `wStep` for the
statement-level version). -/
def createWithdrawal (db : DB) (worker_id : Nat) (method accountNumber : String)
    (amount : Int) : Resp × DB :=
  if ¬ method ∈ withdrawalMethods then
    (⟨400, "Invalid method"⟩, db)
  else if accountNumber = "" ∨ amount = 0 ∨ amount ≤ 0 then
    (⟨400, "Invalid withdrawal request"⟩, db)
  else
    let available := createWithdrawalAvailable db worker_id
    if available < amount then
      (⟨400, "Insufficient balance"⟩, db)
    else
      (⟨201, "Withdrawal request submitted"⟩,
        sqlInsertWithdrawal db worker_id method accountNumber amount)

/-! ### Statement-level view of createWithdrawal

`createWithdrawal` issues its two balance reads and its INSERT as three
separate `executeQuery` calls on pooled connections, with no BEGIN/COMMIT
around them.  `wStep` is the call cut at those statement boundaries, so that
two concurrent calls can interleave between a read and the insert. -/

/-- A pending `createWithdrawal` request. -/
structure WReq where
  worker_id : Nat
  method : String
  accountNumber : String
  amount : Int
deriving Repr, DecidableEq

/-- Progress of one `createWithdrawal` call through its statements. -/
inductive WPhase where
  | start
  | gotEarnings (te : Int)
  | gotWithdrawn (te wd : Int)
  | finished (r : Resp)
deriving Repr, DecidableEq

/-- One statement of `createWithdrawal`: the in-process validation runs
before the first query; then the earnings read, the withdrawn read, and
finally the balance comparison followed immediately by the INSERT. -/
def wStep (req : WReq) (db : DB) : WPhase → DB × WPhase
  | .start =>
    if ¬ req.method ∈ withdrawalMethods then
      (db, .finished ⟨400, "Invalid method"⟩)
    else if req.accountNumber = "" ∨ req.amount = 0 ∨ req.amount ≤ 0 then
      (db, .finished ⟨400, "Invalid withdrawal request"⟩)
    else
      (db, .gotEarnings (sqlTotalEarnings db req.worker_id))
  | .gotEarnings te => (db, .gotWithdrawn te (sqlWithdrawnTotal db req.worker_id))
  | .gotWithdrawn te wd =>
    let available := max 0 (te - wd)
    if available < req.amount then
      (db, .finished ⟨400, "Insufficient balance"⟩)
    else
      (sqlInsertWithdrawal db req.worker_id req.method req.accountNumber req.amount,
        .finished ⟨201, "Withdrawal request submitted"⟩)
  | .finished r => (db, .finished r)

/-- Two concurrent `createWithdrawal` calls A and B against one store: the
schedule says which call runs its next statement. -/
structure WSys where
  db : DB
  phA : WPhase
  phB : WPhase
deriving Repr, DecidableEq

/-- Run a schedule (`false` = step call A, `true` = step call B). -/
def wRun (reqA reqB : WReq) : WSys → List Bool → WSys
  | sys, [] => sys
  | sys, false :: rest =>
    let (db1, ph1) := wStep reqA sys.db sys.phA
    wRun reqA reqB { sys with db := db1, phA := ph1 } rest
  | sys, true :: rest =>
    let (db1, ph1) := wStep reqB sys.db sys.phB
    wRun reqA reqB { sys with db := db1, phB := ph1 } rest

/-! ### The operations as a step relation -/

/-- One invocation of an embedded operation, with its request payload. -/
inductive Op where
  | opCreateIssue (citizen_id : Nat)
  | opApply (issue_id worker_id : Nat) (cost : Int) (time proposal : String)
  | opAccept (now issue_id application_id admin_id : Nat) (feedback : Option String)
  | opRejectApp (now issue_id application_id admin_id : Nat) (feedback : String)
  | opDeleteApp (issue_id worker_id : Nat)
  | opSubmitProof (worker_id issue_id : Nat)
  | opProgress (worker_id issue_id : Nat)
  | opApproveProof (now proof_id admin_id : Nat) (feedback : Option String)
  | opRejectProof (now proof_id admin_id : Nat) (feedback : String)
  | opCreatePayments (txGen : Nat → String) (items : List PaymentItem)
  | opCreateWithdrawal (worker_id : Nat) (method account : String) (amount : Int)
  | opUpdateIssueStatus (issue_id : Nat) (status : String)
  | opUpdateIssue (issue_id : Nat) (status : Option String)

/-- Dispatch an operation against the store. -/
def runOp (db : DB) : Op → Resp × DB
  | .opCreateIssue cid => createIssue db cid
  | .opApply iid wid c t p => applyForIssue db iid wid c t p
  | .opAccept now iid aid adm fb => acceptIssueApplication db now iid aid adm fb
  | .opRejectApp now iid aid adm fb => rejectIssueApplication db now iid aid adm fb
  | .opDeleteApp iid wid => deleteApplication db iid wid
  | .opSubmitProof wid iid => submitProof db wid iid
  | .opProgress wid iid => updateProofProgress db wid iid
  | .opApproveProof now pid adm fb => approveProof db now pid adm fb
  | .opRejectProof now pid adm fb => rejectProof db now pid adm fb
  | .opCreatePayments txGen items => createPayments db txGen items
  | .opCreateWithdrawal wid m acc amt => createWithdrawal db wid m acc amt
  | .opUpdateIssueStatus iid s => updateIssueStatus db iid s
  | .opUpdateIssue iid s => updateIssue db iid s

/-- The two administrative endpoints that write issues.status directly with
no transition rule (issueController.js:174-253). -/
def isDirectIssueUpdate : Op → Bool
  | .opUpdateIssueStatus _ _ => true
  | .opUpdateIssue _ _ => true
  | _ => false

/-- One step by any embedded operation. -/
def SysStep (db db' : DB) : Prop :=
  ∃ op : Op, db' = (runOp db op).2

/-- One step by any embedded operation except the two direct issue-status
update endpoints. -/
def SubsystemStep (db db' : DB) : Prop :=
  ∃ op : Op, isDirectIssueUpdate op = false ∧ db' = (runOp db op).2

/-! ### Spec-side definitions used to state the claims -/

/-- The transition table of §4.1 of the spec, as edges on statuses: the
forward chain `submitted → applied → assigned → in_progress → under_review →
resolved → closed`, evidence submission also from 'assigned', the single
backward edge `under_review → in_progress`, and the delete-triggered reopen
`applied → submitted`. -/
def specAllowedEdge (a b : String) : Bool :=
  (a, b) ∈ [("submitted", "applied"), ("applied", "assigned"),
    ("assigned", "in_progress"), ("in_progress", "under_review"),
    ("assigned", "under_review"), ("under_review", "resolved"),
    ("resolved", "closed"), ("under_review", "in_progress"),
    ("applied", "submitted")]

/-- The spec's Σ of completed Payment amounts for a fixer
(`computeBalance`, §4.4). -/
def specCompletedSum (db : DB) (worker_id : Nat) : Int :=
  ((db.payments.filter (fun p =>
    p.worker_id = worker_id ∧ p.payment_status = "completed")).map
      (fun p => p.amount)).sum

/-- The spec's Σ of successful/in-flight Withdrawal amounts for a fixer. -/
def specInFlightSum (db : DB) (worker_id : Nat) : Int :=
  ((db.withdrawals.filter (fun w =>
    w.worker_id = worker_id ∧ (w.status = "successful" ∨ w.status = "processing"))).map
      (fun w => w.amount)).sum

/-- The balance formula claimed by the spec: completed payments minus
successful/in-flight withdrawals, with no clamp. -/
def specComputeBalance (db : DB) (worker_id : Nat) : Int :=
  specCompletedSum db worker_id - specInFlightSum db worker_id

/-- The Payment row that a successful `createPayments` produces for item `p`
at loop index `k`. -/
def paymentRowOf (txGen : Nat → String) (k : Nat) (p : PaymentItem) : Payment :=
  { issue_id := p.issueId.getD 0
    citizen_id := p.citizenId.getD 0
    worker_id := p.workerId.getD 0
    amount := p.amount.getD 0
    payment_method := p.method.getD "bkash"
    payment_status := "completed"
    transaction_id := txGen k }

/-- The rows a fully successful `createPayments` appends, one per item, in
order, with the transaction identifiers generated at indices k, k+1, ... -/
def paymentRowsOf (txGen : Nat → String) : Nat → List PaymentItem → List Payment
  | _, [] => []
  | k, p :: rest => paymentRowOf txGen k p :: paymentRowsOf txGen (k + 1) rest

/-! ### Invariants -/

/-- Every issue row's status is one of the seven defined values. -/
def StatusWF (db : DB) : Prop :=
  ∀ i ∈ db.issues, i.status ∈ validIssueStatuses

/-- Number of accepted applications on a given issue. -/
def acceptedCount (db : DB) (iid : Nat) : Nat :=
  db.applications.countP (fun a => a.issue_id = iid ∧ a.status = "accepted")

/-- No application on the issue is still 'submitted'. -/
def noSubmitted (db : DB) (iid : Nat) : Prop :=
  ∀ a ∈ db.applications, a.issue_id = iid → a.status ≠ "submitted"

/-- No issue row with this id is open for bidding. -/
def issuesNotOpen (db : DB) (iid : Nat) : Prop :=
  ∀ i ∈ db.issues, i.issue_id = iid →
    ¬ (i.status = "submitted" ∨ i.status = "applied")

/-- Application primary keys are distinct. -/
def appIdsUnique (db : DB) : Prop :=
  db.applications.Pairwise (fun a b => a.application_id ≠ b.application_id)

/-- Every application's issue exists (foreign key fk_applications_issue,
together with the fact that no embedded subsystem operation deletes an
issue). -/
def appIssueExists (db : DB) : Prop :=
  ∀ a ∈ db.applications, ∃ i ∈ db.issues, i.issue_id = a.issue_id

/-- The application-subsystem invariant: distinct application ids, live
foreign keys, and for every accepted application — at most one accepted
application on its issue, no still-'submitted' rival, and the issue not open
for further bidding. -/
def AppInv (db : DB) : Prop :=
  appIdsUnique db ∧ appIssueExists db ∧
    ∀ a ∈ db.applications, a.status = "accepted" →
      acceptedCount db a.issue_id ≤ 1 ∧ noSubmitted db a.issue_id ∧
        issuesNotOpen db a.issue_id

instance (db : DB) : Decidable (StatusWF db) := by
  unfold StatusWF
  infer_instance

instance (db : DB) : Decidable (AppInv db) := by
  unfold AppInv appIdsUnique appIssueExists acceptedCount noSubmitted issuesNotOpen
  infer_instance

/-! ### Concrete store fixtures -/

/-- An admin, two workers and a citizen. -/
def usersFixture : List User :=
  [⟨99, "admin"⟩, ⟨10, "worker"⟩, ⟨11, "worker"⟩, ⟨5, "citizen"⟩]

/-- Build a store over `usersFixture`. -/
def mkDB (is : List Issue) (as : List Application) (ps : List IssueProof)
    (pay : List Payment) (wd : List Withdrawal) : DB :=
  { users := usersFixture
    issues := is
    applications := as
    issue_proofs := ps
    payments := pay
    withdrawals := wd }

/-- Issue 1 'applied' with two submitted bids (workers 10 and 11). -/
def acceptCascadeDB : DB :=
  mkDB [⟨1, 5, "applied", none⟩]
    [⟨1, 1, 10, 50, "2d", "fix", "submitted", none, none, none⟩,
     ⟨2, 1, 11, 60, "1d", "me", "submitted", none, none, none⟩]
    [] [] []

/-- Fresh issue 1 'submitted', no applications yet. -/
def raceDB0 : DB := mkDB [⟨1, 5, "submitted", none⟩] [] [] [] []

/-- Worker 10 applies. -/
def raceDB1 : DB := (applyForIssue raceDB0 1 10 50 "2d" "fix").2

/-- The admin accepts worker 10's application. -/
def raceDB2 : DB := (acceptIssueApplication raceDB1 100 1 1 99 (some "ok")).2

/-- The admin re-opens the issue through the direct status endpoint. -/
def raceDB3 : DB := (updateIssueStatus raceDB2 1 "submitted").2

/-- Worker 11 applies to the re-opened issue. -/
def raceDB4 : DB := (applyForIssue raceDB3 1 11 60 "1d" "me").2

/-- The admin accepts worker 11's application as well. -/
def raceDB5 : DB := (acceptIssueApplication raceDB4 101 1 2 99 (some "ok2")).2

/-- Issue 8 already 'closed'. -/
def closedIssueDB : DB := mkDB [⟨8, 5, "closed", some 10⟩] [] [] [] []

/-- Issue 7 'assigned' (not resolved), no payment yet. -/
def unresolvedPayDB : DB := mkDB [⟨7, 5, "assigned", some 10⟩] [] [] [] []

/-- The single createPayments item paying worker 10 for issue 7. -/
def payItem7 : PaymentItem := ⟨some 7, some 10, some 5, some 50, none⟩

/-- A transaction-identifier generator. -/
def txFixture (k : Nat) : String := "TX-" ++ toString k

/-- Worker 10 has earned 50 (completed) but already withdrew 60
(successful): the spec formula is negative here. -/
def overdrawnDB : DB :=
  mkDB [] [] []
    [⟨1, 5, 10, 50, "bkash", "completed", "TX-1"⟩]
    [⟨10, "bkash", "0123", 60, "successful"⟩]

/-- Worker 10 has exactly 50 of completed earnings and no withdrawals. -/
def withdrawRaceDB : DB :=
  mkDB [] [] [] [⟨1, 5, 10, 50, "bkash", "completed", "TX-1"⟩] []

/-- First concurrent withdrawal request: 50, the whole balance. -/
def wReqA : WReq := ⟨10, "bkash", "0123", 50⟩

/-- Second concurrent withdrawal request: also 50. -/
def wReqB : WReq := ⟨10, "nagad", "0124", 50⟩

/-- The interleaved schedule: both calls read the balance before either
inserts. -/
def wRaceSchedule : List Bool := [false, true, false, true, false, true]

/-- The final system state of the interleaved run. -/
def wRaceResult : WSys := wRun wReqA wReqB ⟨withdrawRaceDB, .start, .start⟩ wRaceSchedule

/-- Issue 2 'under_review' with a pending proof (id 3) by worker 10. -/
def pendingProofDB : DB :=
  mkDB [⟨2, 5, "under_review", some 10⟩] []
    [⟨3, 2, 10, "pending", none, none, none⟩] [] []

/-- Issue 4 'applied'; its only application (worker 10) is rejected — the
deletion should re-open the issue. -/
def deleteRevertDB : DB :=
  mkDB [⟨4, 5, "applied", none⟩]
    [⟨7, 4, 10, 50, "2d", "fix", "rejected", some "no", some 99, some 90⟩]
    [] [] []

/-- Issue 3 'assigned' and worker 10 already has an application on it:
both the DuplicateBid and the IssueNotOpen conditions hold. -/
def dupApplyDB : DB :=
  mkDB [⟨3, 5, "assigned", some 10⟩]
    [⟨9, 3, 10, 50, "2d", "fix", "accepted", none, some 99, some 90⟩]
    [] [] []

/-- Issue 6 'resolved' with no payment yet — the happy path for recording a
payment. -/
def resolvedPayDB : DB := mkDB [⟨6, 5, "resolved", some 10⟩] [] [] [] []

/-- The single createPayments item paying worker 10 for issue 6. -/
def payItem6 : PaymentItem := ⟨some 6, some 10, some 5, some 50, none⟩

/-- Worker 10 with balance 50 and no withdrawals yet. -/
def plainBalanceDB : DB :=
  mkDB [] [] [] [⟨1, 5, 10, 50, "bkash", "completed", "TX-1"⟩] []

/-! ## Helper lemmas -/

theorem paymentsCaseSum_eq (l : List Payment) (w : Nat) :
    ((l.filter (fun p => p.worker_id = w)).map (fun p =>
      if p.payment_status = "completed" then p.amount else 0)).sum =
    ((l.filter (fun p => p.worker_id = w ∧ p.payment_status = "completed")).map
      (fun p => p.amount)).sum := by
  induction l with
  | nil => rfl
  | cons p l ih =>
    by_cases hw : p.worker_id = w
    · by_cases hc : p.payment_status = "completed"
      · simp [List.filter_cons, hw, hc, ih]
      · simp [List.filter_cons, hw, hc, ih]
    · simp [List.filter_cons, hw, ih]

theorem withdrawalsCaseSum_eq (l : List Withdrawal) (w : Nat) :
    ((l.filter (fun x => x.worker_id = w)).map (fun x =>
      if x.status = "successful" ∨ x.status = "processing" then x.amount else 0)).sum =
    ((l.filter (fun x => x.worker_id = w ∧
        (x.status = "successful" ∨ x.status = "processing"))).map
      (fun x => x.amount)).sum := by
  induction l with
  | nil => rfl
  | cons x l ih =>
    by_cases hw : x.worker_id = w
    · by_cases hc : x.status = "successful" ∨ x.status = "processing"
      · simp [List.filter_cons, hw, hc, ih]
      · simp [List.filter_cons, hw, hc, ih]
    · simp [List.filter_cons, hw, ih]

theorem sqlTotalEarnings_eq_spec (db : DB) (w : Nat) :
    sqlTotalEarnings db w = specCompletedSum db w := by
  unfold sqlTotalEarnings specCompletedSum
  exact paymentsCaseSum_eq db.payments w

theorem sqlWithdrawnTotal_eq_spec (db : DB) (w : Nat) :
    sqlWithdrawnTotal db w = specInFlightSum db w := by
  unfold sqlWithdrawnTotal specInFlightSum
  exact withdrawalsCaseSum_eq db.withdrawals w

theorem jsFalsyNat_some (n : Nat) (h : n ≠ 0) : jsFalsyNat (some n) = false := by
  cases n with
  | zero => exact absurd rfl h
  | succ k => rfl

theorem jsFalsyInt_some (a : Int) (h : a ≠ 0) : jsFalsyInt (some a) = false := by
  simp [jsFalsyInt, h]

theorem trgPaymentCompleted_payments (db : DB) (q : Payment) :
    (trgPaymentCompleted db q).payments = db.payments := by
  unfold trgPaymentCompleted
  split <;> rfl

theorem sqlInsertPayment_ok_payments (db : DB) (iid cid wid : Nat) (amt : Int)
    (m tx : String) (db' : DB)
    (h : sqlInsertPayment db iid cid wid amt m tx = .ok db') :
    db'.payments = db.payments ++ [newPaymentRow iid cid wid amt m tx] := by
  unfold sqlInsertPayment at h
  split at h
  · exact absurd h (by simp)
  split at h
  · exact absurd h (by simp)
  split at h
  · exact absurd h (by simp)
  split at h
  · exact absurd h (by simp)
  split at h
  · exact absurd h (by simp)
  split at h
  · exact absurd h (by simp)
  cases h
  rw [trgPaymentCompleted_payments]

theorem createPaymentsGo_spec (db0 : DB) (txg : Nat → String) :
    ∀ (items : List PaymentItem) (cur : DB) (k : Nat),
      ((createPaymentsGo db0 txg cur items k).1.status ≠ 201 →
        (createPaymentsGo db0 txg cur items k).2 = db0) ∧
      ((createPaymentsGo db0 txg cur items k).1.status = 201 →
        (createPaymentsGo db0 txg cur items k).2.payments =
          cur.payments ++ paymentRowsOf txg k items) := by
  intro items
  induction items with
  | nil =>
    intro cur k
    constructor
    · intro h
      exact absurd rfl h
    · intro _
      simp [createPaymentsGo, paymentRowsOf]
  | cons p rest ih =>
    intro cur k
    unfold createPaymentsGo
    split
    · constructor
      · intro _
        rfl
      · intro h
        simp at h
    · split
      · constructor
        · intro _
          rfl
        · intro h
          simp at h
      · rename_i cur1 heq
        have hpay := sqlInsertPayment_ok_payments _ _ _ _ _ _ _ _ heq
        refine ⟨(ih cur1 (k + 1)).1, fun h => ?_⟩
        rw [(ih cur1 (k + 1)).2 h, hpay]
        simp [paymentRowsOf, paymentRowOf, newPaymentRow]

theorem paymentRowsOf_length (txg : Nat → String) :
    ∀ (items : List PaymentItem) (k : Nat),
      (paymentRowsOf txg k items).length = items.length := by
  intro items
  induction items with
  | nil => intro k; rfl
  | cons p rest ih =>
    intro k
    simp [paymentRowsOf, ih]

theorem paymentRowsOf_completed (txg : Nat → String) :
    ∀ (items : List PaymentItem) (k : Nat),
      ∀ row ∈ paymentRowsOf txg k items, row.payment_status = "completed" := by
  intro items
  induction items with
  | nil =>
    intro k row hrow
    simp [paymentRowsOf] at hrow
  | cons p rest ih =>
    intro k row hrow
    rcases (by simpa [paymentRowsOf] using hrow :
        row = paymentRowOf txg k p ∨ row ∈ paymentRowsOf txg (k + 1) rest) with h | h
    · rw [h]
      rfl
    · exact ih (k + 1) row h

/-! ### Status well-formedness lemmas -/

theorem statusWF_of_issues_eq (db db' : DB) (h : db'.issues = db.issues)
    (hd : StatusWF db) : StatusWF db' := by
  intro j hj
  exact hd j (h ▸ hj)

theorem statusWF_map_issues (db : DB) (g : Issue → Issue)
    (hg : ∀ i, (g i).status = i.status ∨ (g i).status ∈ validIssueStatuses)
    (h : StatusWF db) : StatusWF { db with issues := db.issues.map g } := by
  intro j hj
  rcases List.mem_map.mp hj with ⟨i, hi, rfl⟩
  rcases hg i with h1 | h1
  · rw [h1]
    exact h i hi
  · exact h1

theorem statusWF_append_issues (db : DB) (l : List Issue)
    (hl : ∀ i ∈ l, i.status ∈ validIssueStatuses)
    (h : StatusWF db) : StatusWF { db with issues := db.issues ++ l } := by
  intro j hj
  rcases List.mem_append.mp hj with h1 | h1
  · exact h j h1
  · exact hl j h1

theorem setStatus_branch_valid (s : String) (hs : s ∈ validIssueStatuses)
    (c : Issue → Prop) [DecidablePred c] (upd : Issue → Issue)
    (hupd : ∀ i, (upd i).status = s) (i : Issue) :
    ((if c i then upd i else i).status = i.status ∨
      (if c i then upd i else i).status ∈ validIssueStatuses) := by
  by_cases hc : c i
  · rw [if_pos hc, hupd i]
    exact Or.inr hs
  · rw [if_neg hc]
    exact Or.inl rfl

/-! ### Shape lemmas for the statement embeddings -/

theorem sqlInsertApplication_ok_shape (db : DB) (iid wid : Nat) (c : Int)
    (t pr : String) (db1 : DB)
    (h : sqlInsertApplication db iid wid c t pr = .ok db1) :
    db1 = { db with applications := db.applications ++
      [newApplicationRow db iid wid c t pr] } := by
  unfold sqlInsertApplication at h
  split at h
  · exact absurd h (by simp)
  split at h
  · exact absurd h (by simp)
  split at h
  · exact absurd h (by simp)
  split at h
  · exact absurd h (by simp)
  split at h
  · exact absurd h (by simp)
  cases h
  rfl

theorem sqlInsertPayment_ok_shape (db : DB) (iid cid wid : Nat) (amt : Int)
    (m tx : String) (db' : DB)
    (h : sqlInsertPayment db iid cid wid amt m tx = .ok db') :
    db' = trgPaymentCompleted
      { db with payments := db.payments ++ [newPaymentRow iid cid wid amt m tx] }
      (newPaymentRow iid cid wid amt m tx) := by
  unfold sqlInsertPayment at h
  split at h
  · exact absurd h (by simp)
  split at h
  · exact absurd h (by simp)
  split at h
  · exact absurd h (by simp)
  split at h
  · exact absurd h (by simp)
  split at h
  · exact absurd h (by simp)
  split at h
  · exact absurd h (by simp)
  cases h
  rfl

theorem trgApplicationsReviewedAt_ok_fields (db : DB) (now : Nat)
    (row newRow : Application)
    (h : trgApplicationsReviewedAt db now row = .ok newRow) :
    newRow.status = row.status ∧ newRow.application_id = row.application_id ∧
    newRow.issue_id = row.issue_id ∧ newRow.worker_id = row.worker_id ∧
    newRow.feedback = row.feedback ∧ newRow.reviewed_by = row.reviewed_by := by
  unfold trgApplicationsReviewedAt at h
  split at h
  · split at h
    · exact absurd h (by simp)
    · cases h
      exact ⟨rfl, rfl, rfl, rfl, rfl, rfl⟩
  · cases h
    exact ⟨rfl, rfl, rfl, rfl, rfl, rfl⟩

theorem trgApplicationsStatusUpdate_ok_shape (db : DB) (now : Nat)
    (oldStatus : String) (newRow : Application) (db2 : DB)
    (h : trgApplicationsStatusUpdate db now oldStatus newRow = .ok db2) :
    db2 = db ∨
    db2 = { db with
      issues := db.issues.map (fun i =>
        if i.issue_id = newRow.issue_id then
          { i with status := "assigned", assigned_worker_id := some newRow.worker_id }
        else i)
      applications := db.applications.map (fun r =>
        if rivalCond newRow.issue_id newRow.application_id r then
          { r with
            status := "rejected"
            reviewed_by := newRow.reviewed_by
            reviewed_at := some now }
        else r) } := by
  unfold trgApplicationsStatusUpdate at h
  split at h
  · split at h
    · exact absurd h (by simp)
    · cases h
      exact Or.inr rfl
  · cases h
    exact Or.inl rfl

theorem sqlRejectOtherApplications_ok_shape (db : DB) (now : Nat)
    (adm iid aid : Nat) (db' : DB)
    (h : sqlRejectOtherApplications db now adm iid aid = .ok db') :
    db' = { db with applications := db.applications.map (fun r =>
      if staleStatusCond iid aid r then
        { r with
          status := "rejected"
          feedback := some "Application rejected due to another worker being selected"
          reviewed_by := some adm
          reviewed_at := some now }
      else r) } := by
  unfold sqlRejectOtherApplications at h
  split at h
  · exact absurd h (by simp)
  · cases h
    rfl

/-! ### StatusWF is preserved by every operation -/

theorem statusWF_sqlUpdateApplicationAccept (db : DB) (now : Nat)
    (fb : Option String) (adm aid iid : Nat) (db1 : DB) (rc : Nat)
    (h : sqlUpdateApplicationAccept db now fb adm aid iid = .ok (db1, rc))
    (hwf : StatusWF db) : StatusWF db1 := by
  unfold sqlUpdateApplicationAccept at h
  rcases hfind : db.applications.find? (fun a =>
      a.application_id = aid ∧ a.issue_id = iid) with _ | old <;>
    simp only [hfind] at h
  · cases h
    exact hwf
  · rcases hrev : trgApplicationsReviewedAt db now
        { old with
          status := "accepted"
          feedback := fb
          reviewed_by := some adm } with e | newRow <;>
      simp only [hrev] at h
    · exact absurd h (by simp)
    · rcases hupd : trgApplicationsStatusUpdate
          { db with applications := db.applications.map (fun a =>
              if a.application_id = aid ∧ a.issue_id = iid then newRow else a) }
          now old.status newRow with e | db2 <;>
        simp only [hupd] at h
      · exact absurd h (by simp)
      · cases h
        rcases trgApplicationsStatusUpdate_ok_shape _ _ _ _ _ hupd with h2 | h2 <;>
          rw [h2]
        · exact statusWF_of_issues_eq db _ rfl hwf
        · exact statusWF_map_issues _ _
            (setStatus_branch_valid "assigned" (by decide) _ _ (fun i => rfl))
            (statusWF_of_issues_eq db _ rfl hwf)

theorem statusWF_txAccept (db : DB) (now : Nat) (fb : Option String)
    (adm aid iid wid : Nat) (db3 : DB) (rc : Nat)
    (h : txAcceptApplication db now fb adm aid iid wid = .ok (db3, rc))
    (hwf : StatusWF db) : StatusWF db3 := by
  unfold txAcceptApplication at h
  rcases heq1 : sqlUpdateApplicationAccept db now fb adm aid iid with e | ⟨db1, rc1⟩ <;>
    simp only [heq1] at h
  · exact absurd h (by simp)
  · rcases heq2 : sqlRejectOtherApplications (sqlAssignIssue db1 wid iid)
        now adm iid aid with e | db3x <;>
      simp only [heq2] at h
    · exact absurd h (by simp)
    · simp only [Except.ok.injEq, Prod.mk.injEq] at h
      obtain ⟨hdb, hrc⟩ := h
      subst hdb
      have h1 : StatusWF db1 :=
        statusWF_sqlUpdateApplicationAccept db now fb adm aid iid db1 rc1 heq1 hwf
      have h2 : StatusWF (sqlAssignIssue db1 wid iid) :=
        statusWF_map_issues _ _
          (setStatus_branch_valid "assigned" (by decide) _ _ (fun i => rfl)) h1
      rw [sqlRejectOtherApplications_ok_shape _ _ _ _ _ _ heq2]
      exact statusWF_of_issues_eq _ _ rfl h2

theorem statusWF_createPaymentsGo (db0 : DB) (txg : Nat → String) :
    ∀ (items : List PaymentItem) (cur : DB) (k : Nat),
      StatusWF db0 → StatusWF cur →
      StatusWF (createPaymentsGo db0 txg cur items k).2 := by
  intro items
  induction items with
  | nil =>
    intro cur k h0 hc
    exact hc
  | cons p rest ih =>
    intro cur k h0 hc
    unfold createPaymentsGo
    split
    · exact h0
    · split
      · exact h0
      · rename_i cur1 heq
        refine ih cur1 (k + 1) h0 ?_
        rw [sqlInsertPayment_ok_shape _ _ _ _ _ _ _ _ heq]
        unfold trgPaymentCompleted
        split
        · exact statusWF_map_issues _ _
            (setStatus_branch_valid "closed" (by decide) _ _ (fun i => rfl))
            (statusWF_of_issues_eq cur _ rfl hc)
        · exact statusWF_of_issues_eq cur _ rfl hc

theorem statusWF_runOp (db : DB) (op : Op) (hwf : StatusWF db) :
    StatusWF (runOp db op).2 := by
  cases op with
  | opCreateIssue cid =>
    refine statusWF_append_issues db _ ?_ hwf
    intro i hi
    simp only [List.mem_singleton] at hi
    subst hi
    exact (by decide : "submitted" ∈ validIssueStatuses)
  | opApply iid wid c t pr =>
    show StatusWF (applyForIssue db iid wid c t pr).2
    unfold applyForIssue
    split
    · exact hwf
    split
    · exact hwf
    split
    · exact hwf
    split
    · exact hwf
    · rename_i issue hfind
      split
      · exact hwf
      split
      · exact hwf
      · split
        · split
          · exact hwf
          · exact hwf
        · rename_i db1 hins
          have h1 : StatusWF db1 := by
            rw [sqlInsertApplication_ok_shape _ _ _ _ _ _ _ hins]
            exact statusWF_of_issues_eq db _ rfl hwf
          split
          · exact statusWF_map_issues _ _
              (setStatus_branch_valid "applied" (by decide) _ _ (fun i => rfl)) h1
          · exact h1
  | opAccept now iid aid adm fb =>
    show StatusWF (acceptIssueApplication db now iid aid adm fb).2
    unfold acceptIssueApplication
    rcases hfind : db.applications.find? (fun a =>
        a.application_id = aid ∧ a.issue_id = iid) with _ | app <;>
      simp only [hfind]
    · exact hwf
    · split
      · exact hwf
      split
      · exact hwf
      · rcases heq : txAcceptApplication db now fb adm aid iid app.worker_id
            with e | ⟨db3, rc1⟩ <;>
          simp only [heq]
        · exact hwf
        · split
          · exact statusWF_txAccept db now fb adm aid iid app.worker_id db3 rc1 heq hwf
          · exact statusWF_txAccept db now fb adm aid iid app.worker_id db3 rc1 heq hwf
  | opRejectApp now iid aid adm fb =>
    show StatusWF (rejectIssueApplication db now iid aid adm fb).2
    unfold rejectIssueApplication
    split
    · exact hwf
    split
    · exact hwf
    · split
      · exact hwf
      split
      · exact hwf
      split
      · exact hwf
      · split
        · exact hwf
        · exact statusWF_of_issues_eq db _ rfl hwf
  | opDeleteApp iid wid =>
    show StatusWF (deleteApplication db iid wid).2
    unfold deleteApplication
    split
    · exact hwf
    · split
      · exact hwf
      · dsimp only
        have h1 : StatusWF { db with applications := db.applications.filter (fun a =>
            ¬ (a.issue_id = iid ∧ a.worker_id = wid ∧ a.status = "rejected")) } :=
          statusWF_of_issues_eq db _ rfl hwf
        have h2 : StatusWF { db with
            applications := db.applications.filter (fun a =>
              ¬ (a.issue_id = iid ∧ a.worker_id = wid ∧ a.status = "rejected"))
            issues := db.issues.map (fun i =>
              if i.issue_id = iid ∧ i.status = "applied" then
                { i with status := "submitted" }
              else i) } := by
          refine statusWF_map_issues _ _ ?_ h1
          intro i
          by_cases hc : i.issue_id = iid ∧ i.status = "applied"
          · rw [if_pos hc]
            exact Or.inr ((by decide : "submitted" ∈ validIssueStatuses))
          · rw [if_neg hc]
            exact Or.inl rfl
        split <;> split <;> first | exact h2 | exact h1
  | opSubmitProof wid iid =>
    show StatusWF (submitProof db wid iid).2
    unfold submitProof
    split
    · exact hwf
    · split
      · exact hwf
      split
      · exact hwf
      split
      · exact hwf
      · dsimp only
        split
        · exact hwf
        · refine statusWF_map_issues _ _
            (setStatus_branch_valid "under_review" (by decide) _ _ (fun i => rfl)) ?_
          exact statusWF_of_issues_eq db _ rfl hwf
  | opProgress wid iid =>
    show StatusWF (updateProofProgress db wid iid).2
    unfold updateProofProgress
    have h1 : StatusWF { db with issues := db.issues.map (fun i =>
        if i.issue_id = iid ∧ i.assigned_worker_id = some wid ∧
            i.status = "assigned" then
          { i with status := "in_progress" }
        else i) } :=
      statusWF_map_issues _ _
        (setStatus_branch_valid "in_progress" (by decide) _ _ (fun i => rfl)) hwf
    dsimp only
    split
    · exact h1
    · exact h1
  | opApproveProof now pid adm fb =>
    show StatusWF (approveProof db now pid adm fb).2
    unfold approveProof
    split
    · exact hwf
    · split
      · exact hwf
      · dsimp only
        split
        · exact hwf
        split
        · exact hwf
        · unfold trgProofVerified
          split
          · exact statusWF_map_issues _ _
              (setStatus_branch_valid "resolved" (by decide) _ _ (fun i => rfl))
              (statusWF_of_issues_eq db _ rfl hwf)
          split
          · exact statusWF_map_issues _ _
              (setStatus_branch_valid "in_progress" (by decide) _ _ (fun i => rfl))
              (statusWF_of_issues_eq db _ rfl hwf)
          · exact statusWF_of_issues_eq db _ rfl hwf
  | opRejectProof now pid adm fb =>
    show StatusWF (rejectProof db now pid adm fb).2
    unfold rejectProof
    split
    · exact hwf
    · split
      · exact hwf
      · split
        · exact hwf
        · dsimp only
          split
          · exact hwf
          split
          · exact hwf
          · unfold trgProofVerified
            split
            · exact statusWF_map_issues _ _
                (setStatus_branch_valid "resolved" (by decide) _ _ (fun i => rfl))
                (statusWF_of_issues_eq db _ rfl hwf)
            split
            · exact statusWF_map_issues _ _
                (setStatus_branch_valid "in_progress" (by decide) _ _ (fun i => rfl))
                (statusWF_of_issues_eq db _ rfl hwf)
            · exact statusWF_of_issues_eq db _ rfl hwf
  | opCreatePayments txg items =>
    show StatusWF (createPayments db txg items).2
    unfold createPayments
    split
    · exact hwf
    · exact statusWF_createPaymentsGo db txg items db 0 hwf hwf
  | opCreateWithdrawal wid m acc amt =>
    show StatusWF (createWithdrawal db wid m acc amt).2
    unfold createWithdrawal
    split
    · exact hwf
    split
    · exact hwf
    dsimp only
    split
    · exact hwf
    · exact statusWF_of_issues_eq db _ rfl hwf
  | opUpdateIssueStatus iid s =>
    show StatusWF (updateIssueStatus db iid s).2
    unfold updateIssueStatus
    split
    · exact hwf
    split
    · exact hwf
    · rename_i hvalid _
      refine statusWF_map_issues _ _ ?_ hwf
      intro i
      by_cases hc : i.issue_id = iid
      · rw [if_pos hc]
        exact Or.inr (not_not.mp hvalid)
      · rw [if_neg hc]
        exact Or.inl rfl
  | opUpdateIssue iid s =>
    show StatusWF (updateIssue db iid s).2
    unfold updateIssue
    split
    · exact hwf
    · split
      · exact hwf
      split
      · exact hwf
      · rename_i sv _ hvalid
        refine statusWF_map_issues _ _ ?_ hwf
        intro i
        by_cases hc : i.issue_id = iid
        · rw [if_pos hc]
          exact Or.inr (not_not.mp hvalid)
        · rw [if_neg hc]
          exact Or.inl rfl

/-! ### Counting lemmas -/

theorem countP_map_le {α : Type} (l : List α) (f : α → α) (p q : α → Bool)
    (h : ∀ x ∈ l, p (f x) = true → q x = true) :
    (l.map f).countP p ≤ l.countP q := by
  induction l with
  | nil => simp
  | cons a t ih =>
    have ht := ih (fun x hx hpx => h x (List.mem_cons_of_mem a hx) hpx)
    simp only [List.map_cons, List.countP_cons]
    by_cases hp : p (f a) = true
    · rw [if_pos hp, if_pos (h a (List.mem_cons_self a t) hp)]
      omega
    · rw [if_neg hp]
      split <;> omega

theorem countP_map_eq {α : Type} (l : List α) (f : α → α) (p q : α → Bool)
    (h : ∀ x ∈ l, p (f x) = q x) :
    (l.map f).countP p = l.countP q := by
  induction l with
  | nil => simp
  | cons a t ih =>
    have ht := ih (fun x hx => h x (List.mem_cons_of_mem a hx))
    simp only [List.map_cons, List.countP_cons]
    rw [h a (List.mem_cons_self a t), ht]

theorem countP_le_one_of_pairwise {α : Type} (l : List α) (p : α → Bool)
    (h : l.Pairwise (fun a b => ¬ (p a = true ∧ p b = true))) :
    l.countP p ≤ 1 := by
  induction l with
  | nil => simp
  | cons a t ih =>
    rcases List.pairwise_cons.mp h with ⟨ha, ht⟩
    simp only [List.countP_cons]
    by_cases hp : p a = true
    · have h0 : t.countP p = 0 :=
        List.countP_eq_zero.mpr (fun x hx hpx => (ha x hx) ⟨hp, hpx⟩)
      rw [h0, if_pos hp]
    · rw [if_neg hp]
      have := ih ht
      omega

theorem le_foldr_max (l : List Nat) (x : Nat) (hx : x ∈ l) : x ≤ l.foldr max 0 := by
  induction l with
  | nil => cases hx
  | cons a t ih =>
    rcases List.mem_cons.mp hx with rfl | hx'
    · exact le_max_left _ _
    · exact le_trans (ih hx') (le_max_right _ _)

theorem issueId_lt_next (db : DB) (i : Issue) (hi : i ∈ db.issues) :
    i.issue_id < nextIssueId db := by
  have h1 : i.issue_id ≤ (db.issues.map (fun j => j.issue_id)).foldr max 0 :=
    le_foldr_max _ _ (List.mem_map_of_mem _ hi)
  unfold nextIssueId
  omega

theorem appId_lt_next (db : DB) (a : Application) (ha : a ∈ db.applications) :
    a.application_id < nextApplicationId db := by
  have h1 : a.application_id ≤
      (db.applications.map (fun b => b.application_id)).foldr max 0 :=
    le_foldr_max _ _ (List.mem_map_of_mem _ ha)
  unfold nextApplicationId
  omega

/-! ### AppInv transformation lemmas -/

theorem appInv_congr (db db' : DB) (ha : db'.applications = db.applications)
    (hi : db'.issues = db.issues) (h : AppInv db) : AppInv db' := by
  unfold AppInv appIdsUnique appIssueExists acceptedCount noSubmitted issuesNotOpen at h ⊢
  rw [ha, hi]
  exact h

theorem appInv_map_reject (db : DB) (f : Application → Application)
    (hf : ∀ a, f a = a ∨ ((f a).status = "rejected" ∧ (f a).issue_id = a.issue_id ∧
      (f a).application_id = a.application_id))
    (h : AppInv db) : AppInv { db with applications := db.applications.map f } := by
  obtain ⟨hid, hfk, hacc⟩ := h
  have hfid : ∀ a, (f a).application_id = a.application_id := by
    intro a
    rcases hf a with h1 | h1
    · rw [h1]
    · exact h1.2.2
  have hfissue : ∀ a, (f a).issue_id = a.issue_id := by
    intro a
    rcases hf a with h1 | h1
    · rw [h1]
    · exact h1.2.1
  refine ⟨?_, ?_, ?_⟩
  · refine List.pairwise_map.mpr (hid.imp ?_)
    intro a b hab
    rw [hfid a, hfid b]
    exact hab
  · intro x hx
    rcases List.mem_map.mp hx with ⟨a, ha, rfl⟩
    rw [hfissue a]
    exact hfk a ha
  · intro x hx hxacc
    rcases List.mem_map.mp hx with ⟨a, ha, rfl⟩
    have hfa : f a = a := by
      rcases hf a with h1 | h1
      · exact h1
      · rw [h1.1] at hxacc
        exact absurd hxacc (by decide)
    obtain ⟨hc, hn, ho⟩ := hacc a ha (by rw [← hfa]; exact hxacc)
    rw [hfa]
    refine ⟨?_, ?_, ho⟩
    · unfold acceptedCount at hc ⊢
      dsimp only
      have hle : ((db.applications.map f).countP (fun b =>
          b.issue_id = a.issue_id ∧ b.status = "accepted")) ≤
          (db.applications.countP (fun b =>
            b.issue_id = a.issue_id ∧ b.status = "accepted")) := by
        apply countP_map_le
        intro x hxm hpx
        rcases hf x with h1 | h1
        · rw [h1] at hpx
          exact hpx
        · rw [decide_eq_true_iff] at hpx
          rw [h1.1] at hpx
          exact absurd hpx.2 (by decide)
      omega
    · intro y hy hyi
      rcases List.mem_map.mp hy with ⟨b, hb, rfl⟩
      rcases hf b with h1 | h1
      · rw [h1] at hyi ⊢
        exact hn b hb hyi
      · rw [h1.1]
        decide

theorem appInv_filter (db : DB) (q : Application → Bool)
    (h : AppInv db) : AppInv { db with applications := db.applications.filter q } := by
  obtain ⟨hid, hfk, hacc⟩ := h
  refine ⟨hid.sublist (List.filter_sublist _), ?_, ?_⟩
  · intro a ha
    exact hfk a (List.mem_of_mem_filter ha)
  · intro a ha hxacc
    obtain ⟨hc, hn, ho⟩ := hacc a (List.mem_of_mem_filter ha) hxacc
    refine ⟨?_, ?_, ho⟩
    · unfold acceptedCount at hc ⊢
      dsimp only
      have hsub : List.Sublist (db.applications.filter q) db.applications :=
        List.filter_sublist _
      have hle : (db.applications.filter q).countP (fun b =>
          b.issue_id = a.issue_id ∧ b.status = "accepted") ≤
          db.applications.countP (fun b =>
            b.issue_id = a.issue_id ∧ b.status = "accepted") :=
        List.Sublist.countP_le _ hsub
      omega
    · intro y hy hyi
      exact hn y (List.mem_of_mem_filter hy) hyi

theorem appInv_map_issues_notopen (db : DB) (g : Issue → Issue)
    (hgid : ∀ i, (g i).issue_id = i.issue_id)
    (hgs : ∀ i, (g i).status = i.status ∨
      ((g i).status ≠ "submitted" ∧ (g i).status ≠ "applied"))
    (h : AppInv db) : AppInv { db with issues := db.issues.map g } := by
  obtain ⟨hid, hfk, hacc⟩ := h
  refine ⟨hid, ?_, ?_⟩
  · intro a ha
    obtain ⟨i, hi, hieq⟩ := hfk a ha
    exact ⟨g i, List.mem_map_of_mem _ hi, by rw [hgid i]; exact hieq⟩
  · intro a ha hxacc
    obtain ⟨hc, hn, ho⟩ := hacc a ha hxacc
    refine ⟨hc, hn, ?_⟩
    intro j hj hjid
    rcases List.mem_map.mp hj with ⟨i, hi, rfl⟩
    rcases hgs i with h1 | h1
    · rw [h1]
      exact ho i hi (by rw [← hgid i]; exact hjid)
    · intro hcontra
      rcases hcontra with h2 | h2
      · exact h1.1 h2
      · exact h1.2 h2

theorem appInv_map_issues_guarded (db : DB) (g : Issue → Issue)
    (hgid : ∀ i, (g i).issue_id = i.issue_id)
    (hg : ∀ i ∈ db.issues, g i = i ∨
      ∀ a ∈ db.applications, ¬ (a.issue_id = i.issue_id ∧ a.status = "accepted"))
    (h : AppInv db) : AppInv { db with issues := db.issues.map g } := by
  obtain ⟨hid, hfk, hacc⟩ := h
  refine ⟨hid, ?_, ?_⟩
  · intro a ha
    obtain ⟨i, hi, hieq⟩ := hfk a ha
    exact ⟨g i, List.mem_map_of_mem _ hi, by rw [hgid i]; exact hieq⟩
  · intro a ha hxacc
    obtain ⟨hc, hn, ho⟩ := hacc a ha hxacc
    refine ⟨hc, hn, ?_⟩
    intro j hj hjid
    rcases List.mem_map.mp hj with ⟨i, hi, rfl⟩
    rcases hg i hi with h1 | h1
    · rw [h1]
      exact ho i hi (by rw [← hgid i] at *; exact hjid)
    · exfalso
      exact h1 a ha ⟨by rw [hgid i] at hjid; exact hjid.symm ▸ rfl, hxacc⟩

/-! ### AppInv is preserved by the subsystem operations -/

theorem appInv_createIssue (db : DB) (cid : Nat) (h : AppInv db) :
    AppInv (createIssue db cid).2 := by
  obtain ⟨hid, hfk, hacc⟩ := h
  refine ⟨hid, ?_, ?_⟩
  · intro a ha
    obtain ⟨i, hi, hieq⟩ := hfk a ha
    exact ⟨i, List.mem_append_left _ hi, hieq⟩
  · intro a ha hxacc
    obtain ⟨hc, hn, ho⟩ := hacc a ha hxacc
    refine ⟨hc, hn, ?_⟩
    intro j hj hjid
    rcases List.mem_append.mp hj with hj1 | hj1
    · exact ho j hj1 hjid
    · exfalso
      simp only [List.mem_singleton] at hj1
      subst hj1
      have hjid' : nextIssueId db = a.issue_id := hjid
      obtain ⟨i, hi, hieq⟩ := hfk a ha
      have hlt := issueId_lt_next db i hi
      omega

theorem appInv_applyForIssue (db : DB) (iid wid : Nat) (c : Int) (t pr : String)
    (h : AppInv db) : AppInv (applyForIssue db iid wid c t pr).2 := by
  unfold applyForIssue
  split
  · exact h
  split
  · exact h
  split
  · exact h
  rcases hfind : db.issues.find? (fun i => i.issue_id = iid) with _ | issue <;>
    simp only [hfind]
  · exact h
  · split
    · exact h
    split
    · exact h
    · rename_i hopen hnodup
      rcases hins : sqlInsertApplication db iid wid c (strTrim t) (strTrim pr)
          with e | db1 <;> simp only [hins]
      · split
        · exact h
        · exact h
      · -- facts about the found issue
        have hmem : issue ∈ db.issues := List.mem_of_find?_eq_some hfind
        have hiid : issue.issue_id = iid := by
          simpa using List.find?_some hfind
        have hisopen : issue.status = "submitted" ∨ issue.status = "applied" :=
          not_not.mp hopen
        obtain ⟨hid, hfk, hacc⟩ := h
        -- no accepted application on iid
        have hnoacc : ∀ b ∈ db.applications,
            ¬ (b.issue_id = iid ∧ b.status = "accepted") := by
          intro b hb ⟨hbi, hbs⟩
          have ho := (hacc b hb hbs).2.2
          exact ho issue hmem (by rw [hiid, hbi]) hisopen
        -- shape of the inserted store
        have hshape := sqlInsertApplication_ok_shape _ _ _ _ _ _ _ hins
        subst hshape
        have hnewrow_id : (newApplicationRow db iid wid c (strTrim t)
            (strTrim pr)).issue_id = iid := rfl
        have h1 : AppInv { db with applications := db.applications ++
            [newApplicationRow db iid wid c (strTrim t) (strTrim pr)] } := by
          refine ⟨?_, ?_, ?_⟩
          · refine List.pairwise_append.mpr ⟨hid, List.pairwise_singleton _ _, ?_⟩
            intro a ha b hb
            simp only [List.mem_singleton] at hb
            subst hb
            have := appId_lt_next db a ha
            intro heq
            have : a.application_id = nextApplicationId db := heq
            omega
          · intro a ha
            rcases List.mem_append.mp ha with ha1 | ha1
            · exact hfk a ha1
            · simp only [List.mem_singleton] at ha1
              subst ha1
              exact ⟨issue, hmem, hiid.trans hnewrow_id.symm⟩
          · intro a ha hxacc
            rcases List.mem_append.mp ha with ha1 | ha1
            swap
            · exfalso
              simp only [List.mem_singleton] at ha1
              subst ha1
              exact absurd hxacc (show ¬ ("submitted" = "accepted") by decide)
            · obtain ⟨hc, hn, ho⟩ := hacc a ha1 hxacc
              have haiid : a.issue_id ≠ iid := by
                intro heq
                exact hnoacc a ha1 ⟨heq, hxacc⟩
              refine ⟨?_, ?_, ho⟩
              · unfold acceptedCount at hc ⊢
                dsimp only
                rw [List.countP_append]
                have h0 : List.countP (fun b =>
                    b.issue_id = a.issue_id ∧ b.status = "accepted")
                    [newApplicationRow db iid wid c (strTrim t) (strTrim pr)] = 0 := by
                  simp [newApplicationRow, haiid.symm]
                omega
              · intro y hy hyi
                rcases List.mem_append.mp hy with hy1 | hy1
                · exact hn y hy1 hyi
                · simp only [List.mem_singleton] at hy1
                  subst hy1
                  exact absurd ((hnewrow_id.symm.trans hyi).symm) haiid
        split
        · -- issue was 'submitted': the transaction also sets it 'applied'
          refine appInv_map_issues_guarded _ _ (fun i => ?_) (fun i hi => ?_) h1
          · by_cases hci : i.issue_id = iid
            · rw [if_pos hci]
            · rw [if_neg hci]
          · by_cases hci : i.issue_id = iid
            · right
              intro a ha ⟨hai, has⟩
              rcases List.mem_append.mp ha with ha1 | ha1
              · exact hnoacc a ha1 ⟨by rw [← hci]; exact hai, has⟩
              · simp only [List.mem_singleton] at ha1
                subst ha1
                exact absurd has (show ¬ ("submitted" = "accepted") by decide)
            · left
              rw [if_neg hci]
        · exact h1

theorem rivalCond_self_false (iid aid : Nat) (N : Application)
    (hNaid : N.application_id = aid) : rivalCond iid aid N = false := by
  unfold rivalCond
  simp [hNaid]

/-- Effect of the accepting UPDATE together with its AFTER trigger: the
target row becomes the accepted `N`, every 'submitted'/'under_review' rival
on the issue is rejected, and the issue is assigned.  This is the step that
establishes the at-most-one-accepted invariant. -/
theorem appInv_cascade (db : DB) (now aid iid : Nat) (N T : Application)
    (hTmem : T ∈ db.applications) (_hTaid : T.application_id = aid)
    (hTiid : T.issue_id = iid) (hTsub : T.status = "submitted")
    (hNacc : N.status = "accepted") (hNaid : N.application_id = aid)
    (hNiid : N.issue_id = iid) (h : AppInv db) :
    AppInv { db with
      issues := db.issues.map (fun i =>
        if i.issue_id = iid then
          { i with status := "assigned", assigned_worker_id := some N.worker_id }
        else i)
      applications := (db.applications.map (fun a =>
        if a.application_id = aid ∧ a.issue_id = iid then N else a)).map (fun r =>
        if rivalCond iid aid r then
          { r with
            status := "rejected"
            reviewed_by := N.reviewed_by
            reviewed_at := some now }
        else r) } := by
  obtain ⟨hid, hfk, hacc⟩ := h
  have hnoacc : ∀ b ∈ db.applications, ¬ (b.issue_id = iid ∧ b.status = "accepted") := by
    intro b hb ⟨hbi, hbs⟩
    exact (hacc b hb hbs).2.1 T hTmem (hTiid.trans hbi.symm) hTsub
  -- stage functions and their pointwise id preservation
  have hs1id : ∀ a : Application,
      ((if a.application_id = aid ∧ a.issue_id = iid then N else a).application_id =
        a.application_id ∧
      (if a.application_id = aid ∧ a.issue_id = iid then N else a).issue_id =
        a.issue_id) := by
    intro a
    by_cases hca : a.application_id = aid ∧ a.issue_id = iid
    · rw [if_pos hca]
      exact ⟨hNaid.trans hca.1.symm, hNiid.trans hca.2.symm⟩
    · rw [if_neg hca]
      exact ⟨rfl, rfl⟩
  have hs2id : ∀ r : Application,
      ((if rivalCond iid aid r then
          { r with
            status := "rejected"
            reviewed_by := N.reviewed_by
            reviewed_at := some now } else r).application_id = r.application_id ∧
      (if rivalCond iid aid r then
          { r with
            status := "rejected"
            reviewed_by := N.reviewed_by
            reviewed_at := some now } else r).issue_id = r.issue_id) := by
    intro r
    by_cases hcr : rivalCond iid aid r = true
    · rw [if_pos hcr]
      exact ⟨rfl, rfl⟩
    · rw [if_neg hcr]
      exact ⟨rfl, rfl⟩
  refine ⟨?_, ?_, ?_⟩
  · refine List.pairwise_map.mpr (List.pairwise_map.mpr (hid.imp ?_))
    intro a b hab
    rw [(hs2id _).1, (hs1id a).1, (hs2id _).1, (hs1id b).1]
    exact hab
  · intro x hx
    rcases List.mem_map.mp hx with ⟨z, hz, rfl⟩
    rcases List.mem_map.mp hz with ⟨a, ha, rfl⟩
    obtain ⟨i, hi, hieq⟩ := hfk a ha
    refine ⟨_, List.mem_map_of_mem (fun i =>
      if i.issue_id = iid then
        { i with status := "assigned", assigned_worker_id := some N.worker_id }
      else i) hi, ?_⟩
    rw [(hs2id _).2, (hs1id a).2]
    by_cases hci : i.issue_id = iid
    · rw [if_pos hci]
      exact hieq
    · rw [if_neg hci]
      exact hieq
  · intro x hx hxacc
    rcases List.mem_map.mp hx with ⟨z, hz, rfl⟩
    rcases List.mem_map.mp hz with ⟨a, ha, rfl⟩
    -- the accepted survivor is either N itself or an old accepted row off-issue
    have hzkeep : ¬ rivalCond iid aid (if a.application_id = aid ∧ a.issue_id = iid
        then N else a) = true := by
      intro hr
      rw [if_pos hr] at hxacc
      exact absurd hxacc (show ¬ ("rejected" = "accepted") by decide)
    rw [if_neg hzkeep] at hxacc hx ⊢
    by_cases hca : a.application_id = aid ∧ a.issue_id = iid
    · -- the winner: x = N
      rw [if_pos hca] at hxacc hx ⊢
      rw [hNiid]
      refine ⟨?_, ?_, ?_⟩
      · -- at most one accepted on iid afterwards
        unfold acceptedCount
        dsimp only
        have hle1 : ((db.applications.map (fun a =>
            if a.application_id = aid ∧ a.issue_id = iid then N else a)).map (fun r =>
            if rivalCond iid aid r then
              { r with
                status := "rejected"
                reviewed_by := N.reviewed_by
                reviewed_at := some now } else r)).countP (fun b =>
              b.issue_id = iid ∧ b.status = "accepted") ≤
            (db.applications.map (fun a =>
              if a.application_id = aid ∧ a.issue_id = iid then N else a)).countP
              (fun z => z.application_id = aid) := by
          apply countP_map_le
          intro z hzm hpz
          by_cases hcr : rivalCond iid aid z = true
          · rw [if_pos hcr] at hpz
            rw [decide_eq_true_iff] at hpz
            exact absurd hpz.2 (show ¬ ("rejected" = "accepted") by decide)
          · rw [if_neg hcr] at hpz
            rw [decide_eq_true_iff] at hpz
            rcases List.mem_map.mp hzm with ⟨b, hb, rfl⟩
            by_cases hcb : b.application_id = aid ∧ b.issue_id = iid
            · rw [if_pos hcb] at hpz ⊢
              simp [hNaid]
            · rw [if_neg hcb] at hpz ⊢
              exact absurd hpz (hnoacc b hb)
        have hle2 : ((db.applications.map (fun a =>
            if a.application_id = aid ∧ a.issue_id = iid then N else a)).countP
              (fun z => z.application_id = aid)) =
            db.applications.countP (fun b => b.application_id = aid) := by
          apply countP_map_eq
          intro b hb
          by_cases hcb : b.application_id = aid ∧ b.issue_id = iid
          · rw [if_pos hcb]
            simp [hNaid, hcb.1]
          · rw [if_neg hcb]
        have hle3 : db.applications.countP (fun b => b.application_id = aid) ≤ 1 := by
          apply countP_le_one_of_pairwise
          refine hid.imp ?_
          intro a b hab ⟨ha1, hb1⟩
          rw [decide_eq_true_iff] at ha1 hb1
          exact hab (ha1.trans hb1.symm)
        omega
      · -- no 'submitted' application remains on iid
        intro y hy hyi
        rcases List.mem_map.mp hy with ⟨z, hz, rfl⟩
        rcases List.mem_map.mp hz with ⟨b, hb, rfl⟩
        by_cases hcr : rivalCond iid aid (if b.application_id = aid ∧ b.issue_id = iid
            then N else b) = true
        · rw [if_pos hcr]
          exact (show "rejected" ≠ "submitted" by decide)
        · rw [if_neg hcr] at hyi ⊢
          by_cases hcb : b.application_id = aid ∧ b.issue_id = iid
          · rw [if_pos hcb]
            rw [hNacc]
            decide
          · rw [if_neg hcb] at hyi ⊢
            intro hbs
            apply hcr
            rw [if_neg hcb]
            unfold rivalCond
            have hbid : ¬ b.application_id = aid := by
              intro h1
              exact hcb ⟨h1, hyi⟩
            simp [hyi, hbid, hbs]
      · -- every issue row with id iid is now 'assigned'
        intro j hj hjid
        rcases List.mem_map.mp hj with ⟨i, hi, rfl⟩
        by_cases hci : i.issue_id = iid
        · rw [if_pos hci]
          exact (show ¬ ("assigned" = "submitted" ∨ "assigned" = "applied") by decide)
        · rw [if_neg hci] at hjid ⊢
          exact absurd hjid hci
    · -- an old accepted row: x = a, necessarily on another issue
      rw [if_neg hca] at hxacc hx ⊢
      have haiid : a.issue_id ≠ iid := by
        intro heq
        exact hnoacc a ha ⟨heq, hxacc⟩
      obtain ⟨hc, hn, ho⟩ := hacc a ha hxacc
      refine ⟨?_, ?_, ?_⟩
      · unfold acceptedCount at hc ⊢
        dsimp only
        have heq1 : ((db.applications.map (fun b =>
            if b.application_id = aid ∧ b.issue_id = iid then N else b)).map (fun r =>
            if rivalCond iid aid r then
              { r with
                status := "rejected"
                reviewed_by := N.reviewed_by
                reviewed_at := some now } else r)).countP (fun b =>
              b.issue_id = a.issue_id ∧ b.status = "accepted") =
            (db.applications.map (fun b =>
              if b.application_id = aid ∧ b.issue_id = iid then N else b)).countP
              (fun b => b.issue_id = a.issue_id ∧ b.status = "accepted") := by
          apply countP_map_eq
          intro z hzm
          by_cases hcr : rivalCond iid aid z = true
          · rw [if_pos hcr]
            have h1 : ¬ (z.issue_id = a.issue_id ∧ z.status = "accepted") := by
              intro ⟨_, h2⟩
              unfold rivalCond at hcr
              rw [decide_eq_true_iff] at hcr
              rcases hcr.2.2 with h3 | h3 <;> rw [h2] at h3 <;> exact absurd h3 (by decide)
            simp only [decide_eq_decide]
            constructor
            · intro ⟨_, h2⟩
              exact absurd h2 (by decide)
            · intro h2
              exact absurd h2 h1
          · rw [if_neg hcr]
        have heq2 : ((db.applications.map (fun b =>
            if b.application_id = aid ∧ b.issue_id = iid then N else b)).countP
              (fun b => b.issue_id = a.issue_id ∧ b.status = "accepted")) =
            db.applications.countP (fun b =>
              b.issue_id = a.issue_id ∧ b.status = "accepted") := by
          apply countP_map_eq
          intro b hb
          by_cases hcb : b.application_id = aid ∧ b.issue_id = iid
          · rw [if_pos hcb]
            simp only [decide_eq_decide]
            constructor
            · intro ⟨h1, _⟩
              exact absurd (h1.symm.trans hNiid) haiid
            · intro ⟨h1, _⟩
              exact absurd (h1.symm.trans hcb.2) haiid
          · rw [if_neg hcb]
        rw [heq1, heq2]
        exact hc
      · intro y hy hyi
        rcases List.mem_map.mp hy with ⟨z, hz, rfl⟩
        rcases List.mem_map.mp hz with ⟨b, hb, rfl⟩
        by_cases hcr : rivalCond iid aid (if b.application_id = aid ∧ b.issue_id = iid
            then N else b) = true
        · rw [if_pos hcr]
          exact (show "rejected" ≠ "submitted" by decide)
        · rw [if_neg hcr] at hyi ⊢
          by_cases hcb : b.application_id = aid ∧ b.issue_id = iid
          · rw [if_pos hcb]
            rw [hNacc]
            decide
          · rw [if_neg hcb] at hyi ⊢
            exact hn b hb hyi
      · intro j hj hjid
        rcases List.mem_map.mp hj with ⟨i, hi, rfl⟩
        by_cases hci : i.issue_id = iid
        · rw [if_pos hci] at hjid ⊢
          have h1 : i.issue_id = a.issue_id := hjid
          exact absurd (h1.symm.trans hci) haiid
        · rw [if_neg hci] at hjid ⊢
          exact ho i hi hjid

theorem trgApplicationsStatusUpdate_ok_fire (db : DB) (now : Nat)
    (oldStatus : String) (newRow : Application) (db2 : DB)
    (hcond : newRow.status = "accepted" ∧ oldStatus ≠ "accepted")
    (h : trgApplicationsStatusUpdate db now oldStatus newRow = .ok db2) :
    db2 = { db with
      issues := db.issues.map (fun i =>
        if i.issue_id = newRow.issue_id then
          { i with status := "assigned", assigned_worker_id := some newRow.worker_id }
        else i)
      applications := db.applications.map (fun r =>
        if rivalCond newRow.issue_id newRow.application_id r then
          { r with
            status := "rejected"
            reviewed_by := newRow.reviewed_by
            reviewed_at := some now }
        else r) } := by
  unfold trgApplicationsStatusUpdate at h
  rw [if_pos hcond] at h
  split at h
  · exact absurd h (by simp)
  · cases h
    rfl

theorem appInv_txAccept (db : DB) (now adm aid iid wid : Nat) (fb : Option String)
    (T : Application) (db3 : DB) (rc1 : Nat)
    (hfind : db.applications.find? (fun a =>
      a.application_id = aid ∧ a.issue_id = iid) = some T)
    (hTsub : T.status = "submitted")
    (htx : txAcceptApplication db now fb adm aid iid wid = .ok (db3, rc1))
    (h : AppInv db) : AppInv db3 := by
  have hTmem : T ∈ db.applications := List.mem_of_find?_eq_some hfind
  have hTprop : T.application_id = aid ∧ T.issue_id = iid := by
    simpa using List.find?_some hfind
  unfold txAcceptApplication at htx
  rcases hupd : sqlUpdateApplicationAccept db now fb adm aid iid with e | ⟨db1, rc⟩ <;>
    simp only [hupd] at htx
  · exact absurd htx (by simp)
  rcases hrej : sqlRejectOtherApplications (sqlAssignIssue db1 wid iid)
      now adm iid aid with e | db3x <;>
    simp only [hrej] at htx
  · exact absurd htx (by simp)
  simp only [Except.ok.injEq, Prod.mk.injEq] at htx
  obtain ⟨hdb3, hrc⟩ := htx
  subst hdb3
  unfold sqlUpdateApplicationAccept at hupd
  simp only [hfind] at hupd
  rcases hrev : trgApplicationsReviewedAt db now
      { T with
        status := "accepted"
        feedback := fb
        reviewed_by := some adm } with e | N <;>
    simp only [hrev] at hupd
  · exact absurd hupd (by simp)
  rcases hcasc : trgApplicationsStatusUpdate
      { db with applications := db.applications.map (fun a =>
          if a.application_id = aid ∧ a.issue_id = iid then N else a) }
      now T.status N with e | db2 <;>
    simp only [hcasc] at hupd
  · exact absurd hupd (by simp)
  simp only [Except.ok.injEq, Prod.mk.injEq] at hupd
  obtain ⟨hdb1, hrcx⟩ := hupd
  subst hdb1
  have hNf := trgApplicationsReviewedAt_ok_fields _ _ _ _ hrev
  have hNacc : N.status = "accepted" := hNf.1
  have hNaid : N.application_id = aid := hNf.2.1.trans hTprop.1
  have hNiid : N.issue_id = iid := hNf.2.2.1.trans hTprop.2
  have hfire := trgApplicationsStatusUpdate_ok_fire _ _ _ _ _
    ⟨hNacc, by rw [hTsub]; decide⟩ hcasc
  subst hfire
  rw [sqlRejectOtherApplications_ok_shape _ _ _ _ _ _ hrej]
  refine appInv_map_reject _ _ ?_ ?_
  · intro a
    by_cases hc : staleStatusCond iid aid a = true
    · rw [if_pos hc]
      exact Or.inr ⟨rfl, rfl, rfl⟩
    · rw [if_neg hc]
      exact Or.inl rfl
  · unfold sqlAssignIssue
    refine appInv_map_issues_notopen _ _ ?_ ?_ ?_
    · intro i
      by_cases hci : i.issue_id = iid
      · rw [if_pos hci]
      · rw [if_neg hci]
    · intro i
      by_cases hci : i.issue_id = iid
      · rw [if_pos hci]
        exact Or.inr ⟨(show ("assigned" : String) ≠ "submitted" by decide),
          (show ("assigned" : String) ≠ "applied" by decide)⟩
      · rw [if_neg hci]
        exact Or.inl rfl
    · simp only [hNiid, hNaid]
      exact appInv_cascade db now aid iid N T hTmem hTprop.1 hTprop.2 hTsub
        hNacc hNaid hNiid h

theorem appInv_acceptIssueApplication (db : DB) (now iid aid adm : Nat)
    (fb : Option String) (h : AppInv db) :
    AppInv (acceptIssueApplication db now iid aid adm fb).2 := by
  unfold acceptIssueApplication
  rcases hfind : db.applications.find? (fun a =>
      a.application_id = aid ∧ a.issue_id = iid) with _ | T <;>
    simp only [hfind]
  · exact h
  split
  · exact h
  split
  · exact h
  · rename_i hTacc hTns
    rcases htx : txAcceptApplication db now fb adm aid iid T.worker_id
        with e | ⟨db3, rc1⟩ <;>
      simp only [htx]
    · exact h
    · have hTsub : T.status = "submitted" := not_not.mp hTns
      have hmain := appInv_txAccept db now adm aid iid T.worker_id fb T db3 rc1
        hfind hTsub htx h
      split
      · exact hmain
      · exact hmain

theorem appInv_rejectIssueApplication (db : DB) (now iid aid adm : Nat)
    (fb : String) (h : AppInv db) :
    AppInv (rejectIssueApplication db now iid aid adm fb).2 := by
  unfold rejectIssueApplication
  split
  · exact h
  rcases hfind : db.applications.find? (fun a =>
      a.application_id = aid ∧ a.issue_id = iid) with _ | app <;>
    simp only [hfind]
  · exact h
  split
  · exact h
  split
  · exact h
  split
  · exact h
  rcases hrev : trgApplicationsReviewedAt db now
      { app with
        status := "rejected"
        feedback := some (strTrim fb)
        reviewed_by := some adm } with e | newRow <;>
    simp only [hrev]
  · exact h
  · have happ : app.application_id = aid ∧ app.issue_id = iid := by
      simpa using List.find?_some hfind
    have hNf := trgApplicationsReviewedAt_ok_fields _ _ _ _ hrev
    refine appInv_map_reject _ _ ?_ h
    intro a
    by_cases hc : a.application_id = aid ∧ a.issue_id = iid
    · rw [if_pos hc]
      exact Or.inr ⟨hNf.1, hNf.2.2.1.trans (happ.2.trans hc.2.symm),
        hNf.2.1.trans (happ.1.trans hc.1.symm)⟩
    · rw [if_neg hc]
      exact Or.inl rfl

theorem appInv_deleteApplication (db : DB) (iid wid : Nat) (h : AppInv db) :
    AppInv (deleteApplication db iid wid).2 := by
  unfold deleteApplication
  split
  · exact h
  split
  · exact h
  · dsimp only
    have h1 : AppInv { db with applications := db.applications.filter (fun a =>
        ¬ (a.issue_id = iid ∧ a.worker_id = wid ∧ a.status = "rejected")) } :=
      appInv_filter db _ h
    have h2 : AppInv { db with
        applications := db.applications.filter (fun a =>
          ¬ (a.issue_id = iid ∧ a.worker_id = wid ∧ a.status = "rejected"))
        issues := db.issues.map (fun i =>
          if i.issue_id = iid ∧ i.status = "applied" then
            { i with status := "submitted" }
          else i) } := by
      refine appInv_map_issues_guarded _ _ ?_ ?_ h1
      · intro i
        by_cases hci : i.issue_id = iid ∧ i.status = "applied"
        · rw [if_pos hci]
        · rw [if_neg hci]
      · intro i hi
        by_cases hci : i.issue_id = iid ∧ i.status = "applied"
        · refine Or.inr ?_
          intro a ha ⟨hai, has⟩
          obtain ⟨_, _, hacc1⟩ := h1
          exact (hacc1 a ha has).2.2 i hi hai.symm (Or.inr hci.2)
        · refine Or.inl ?_
          rw [if_neg hci]
    split <;> split <;> first | exact h2 | exact h1

theorem appInv_submitProof (db : DB) (wid iid : Nat) (h : AppInv db) :
    AppInv (submitProof db wid iid).2 := by
  unfold submitProof
  split
  · exact h
  split
  · exact h
  split
  · exact h
  split
  · exact h
  · dsimp only
    split
    · exact h
    · unfold trgProofSubmitted
      refine appInv_map_issues_notopen _ _ ?_ ?_ ?_
      · intro i
        by_cases hci : i.issue_id = iid
        · rw [if_pos hci]
        · rw [if_neg hci]
      · intro i
        by_cases hci : i.issue_id = iid
        · rw [if_pos hci]
          exact Or.inr ⟨(show ("under_review" : String) ≠ "submitted" by decide),
            (show ("under_review" : String) ≠ "applied" by decide)⟩
        · rw [if_neg hci]
          exact Or.inl rfl
      · exact appInv_congr db _ rfl rfl h

theorem appInv_updateProofProgress (db : DB) (wid iid : Nat) (h : AppInv db) :
    AppInv (updateProofProgress db wid iid).2 := by
  unfold updateProofProgress
  have h1 : AppInv { db with issues := db.issues.map (fun i =>
      if i.issue_id = iid ∧ i.assigned_worker_id = some wid ∧
          i.status = "assigned" then
        { i with status := "in_progress" }
      else i) } := by
    refine appInv_map_issues_notopen _ _ ?_ ?_ h
    · intro i
      by_cases hci : i.issue_id = iid ∧ i.assigned_worker_id = some wid ∧
          i.status = "assigned"
      · rw [if_pos hci]
      · rw [if_neg hci]
    · intro i
      by_cases hci : i.issue_id = iid ∧ i.assigned_worker_id = some wid ∧
          i.status = "assigned"
      · rw [if_pos hci]
        exact Or.inr ⟨(show ("in_progress" : String) ≠ "submitted" by decide),
          (show ("in_progress" : String) ≠ "applied" by decide)⟩
      · rw [if_neg hci]
        exact Or.inl rfl
  dsimp only
  split
  · exact h1
  · exact h1

theorem appInv_trgProofVerified (db : DB) (p : IssueProof) (h : AppInv db) :
    AppInv (trgProofVerified db p) := by
  unfold trgProofVerified
  split
  · refine appInv_map_issues_notopen _ _ ?_ ?_ h
    · intro i
      by_cases hci : i.issue_id = p.issue_id
      · rw [if_pos hci]
      · rw [if_neg hci]
    · intro i
      by_cases hci : i.issue_id = p.issue_id
      · rw [if_pos hci]
        exact Or.inr ⟨(show ("resolved" : String) ≠ "submitted" by decide),
          (show ("resolved" : String) ≠ "applied" by decide)⟩
      · rw [if_neg hci]
        exact Or.inl rfl
  split
  · refine appInv_map_issues_notopen _ _ ?_ ?_ h
    · intro i
      by_cases hci : i.issue_id = p.issue_id
      · rw [if_pos hci]
      · rw [if_neg hci]
    · intro i
      by_cases hci : i.issue_id = p.issue_id
      · rw [if_pos hci]
        exact Or.inr ⟨(show ("in_progress" : String) ≠ "submitted" by decide),
          (show ("in_progress" : String) ≠ "applied" by decide)⟩
      · rw [if_neg hci]
        exact Or.inl rfl
  · exact h

theorem appInv_approveProof (db : DB) (now pid adm : Nat) (fb : Option String)
    (h : AppInv db) : AppInv (approveProof db now pid adm fb).2 := by
  unfold approveProof
  split
  · exact h
  split
  · exact h
  · dsimp only
    split
    · exact h
    split
    · exact h
    · exact appInv_trgProofVerified _ _ (appInv_congr db _ rfl rfl h)

theorem appInv_rejectProof (db : DB) (now pid adm : Nat) (fb : String)
    (h : AppInv db) : AppInv (rejectProof db now pid adm fb).2 := by
  unfold rejectProof
  split
  · exact h
  split
  · exact h
  split
  · exact h
  · dsimp only
    split
    · exact h
    split
    · exact h
    · exact appInv_trgProofVerified _ _ (appInv_congr db _ rfl rfl h)

theorem appInv_trgPaymentCompleted (db : DB) (p : Payment) (h : AppInv db) :
    AppInv (trgPaymentCompleted db p) := by
  unfold trgPaymentCompleted
  split
  · refine appInv_map_issues_notopen _ _ ?_ ?_ h
    · intro i
      by_cases hci : i.issue_id = p.issue_id
      · rw [if_pos hci]
      · rw [if_neg hci]
    · intro i
      by_cases hci : i.issue_id = p.issue_id
      · rw [if_pos hci]
        exact Or.inr ⟨(show ("closed" : String) ≠ "submitted" by decide),
          (show ("closed" : String) ≠ "applied" by decide)⟩
      · rw [if_neg hci]
        exact Or.inl rfl
  · exact h

theorem appInv_createPaymentsGo (db0 : DB) (txg : Nat → String) :
    ∀ (items : List PaymentItem) (cur : DB) (k : Nat),
      AppInv db0 → AppInv cur →
      AppInv (createPaymentsGo db0 txg cur items k).2 := by
  intro items
  induction items with
  | nil =>
    intro cur k h0 hc
    exact hc
  | cons p rest ih =>
    intro cur k h0 hc
    unfold createPaymentsGo
    split
    · exact h0
    · split
      · exact h0
      · rename_i cur1 heq
        refine ih cur1 (k + 1) h0 ?_
        rw [sqlInsertPayment_ok_shape _ _ _ _ _ _ _ _ heq]
        exact appInv_trgPaymentCompleted _ _ (appInv_congr cur _ rfl rfl hc)

theorem appInv_createPayments (db : DB) (txg : Nat → String)
    (items : List PaymentItem) (h : AppInv db) :
    AppInv (createPayments db txg items).2 := by
  unfold createPayments
  split
  · exact h
  · exact appInv_createPaymentsGo db txg items db 0 h h

theorem appInv_createWithdrawal (db : DB) (wid : Nat) (m acc : String)
    (amt : Int) (h : AppInv db) :
    AppInv (createWithdrawal db wid m acc amt).2 := by
  unfold createWithdrawal
  split
  · exact h
  split
  · exact h
  dsimp only
  split
  · exact h
  · exact appInv_congr db _ rfl rfl h

theorem appInv_runOp (db : DB) (op : Op) (hop : isDirectIssueUpdate op = false)
    (h : AppInv db) : AppInv (runOp db op).2 := by
  cases op with
  | opCreateIssue cid => exact appInv_createIssue db cid h
  | opApply iid wid c t pr => exact appInv_applyForIssue db iid wid c t pr h
  | opAccept now iid aid adm fb => exact appInv_acceptIssueApplication db now iid aid adm fb h
  | opRejectApp now iid aid adm fb => exact appInv_rejectIssueApplication db now iid aid adm fb h
  | opDeleteApp iid wid => exact appInv_deleteApplication db iid wid h
  | opSubmitProof wid iid => exact appInv_submitProof db wid iid h
  | opProgress wid iid => exact appInv_updateProofProgress db wid iid h
  | opApproveProof now pid adm fb => exact appInv_approveProof db now pid adm fb h
  | opRejectProof now pid adm fb => exact appInv_rejectProof db now pid adm fb h
  | opCreatePayments txg items => exact appInv_createPayments db txg items h
  | opCreateWithdrawal wid m acc amt => exact appInv_createWithdrawal db wid m acc amt h
  | opUpdateIssueStatus iid s => exact absurd hop (by simp [isDirectIssueUpdate])
  | opUpdateIssue iid s => exact absurd hop (by simp [isDirectIssueUpdate])

theorem trgProofVerifiedAdminCheck_ok (db : DB) (p : IssueProof) (adm : Nat)
    (u : User) (hpv : p.verified_by = some adm)
    (hu : db.users.find? (fun w => w.user_id = adm) = some u)
    (hut : u.user_type = "admin") :
    trgProofVerifiedAdminCheck db p = .ok () := by
  unfold trgProofVerifiedAdminCheck
  simp only [hpv, hu, hut]
  simp

theorem trgProofVerifiedAdminCheck_raise (db : DB) (p : IssueProof) (adm : Nat)
    (u : User) (hpv : p.verified_by = some adm)
    (hu : db.users.find? (fun w => w.user_id = adm) = some u)
    (hut : u.user_type ≠ "admin") :
    trgProofVerifiedAdminCheck db p =
      .error ⟨"P0001", "Only admins can verify issue proofs"⟩ := by
  unfold trgProofVerifiedAdminCheck
  simp only [hpv, hu]
  rw [if_pos hut]

theorem fkProofsVerifiedBy_ok (db : DB) (p : IssueProof) (adm : Nat)
    (u : User) (hpv : p.verified_by = some adm)
    (hu : db.users.find? (fun w => w.user_id = adm) = some u) :
    fkProofsVerifiedBy db p = .ok () := by
  have hmem : u ∈ db.users := List.mem_of_find?_eq_some hu
  have hpu : u.user_id = adm := by simpa using List.find?_some hu
  have hany : db.users.any (fun w => w.user_id = adm) = true := by
    simp only [List.any_eq_true]
    exact ⟨u, hmem, by simp [hpu]⟩
  unfold fkProofsVerifiedBy
  simp only [hpv, hany]
  simp

/-! ## Theorems settling the claims -/

/-- C5 (amended): both balances the code reports — `getWorkerSummary`'s
currentBalance and `createWithdrawal`'s available — equal the spec's
completed-minus-in-flight formula clamped below at zero, for every store
state. -/
theorem C5_balance_equals_clamped_formula (db : DB) (w : Nat) :
    getWorkerSummaryCurrentBalance db w = max 0 (specComputeBalance db w) ∧
    createWithdrawalAvailable db w = max 0 (specComputeBalance db w) := by
  unfold getWorkerSummaryCurrentBalance createWithdrawalAvailable specComputeBalance
  rw [sqlTotalEarnings_eq_spec, sqlWithdrawnTotal_eq_spec]
  exact ⟨rfl, rfl⟩

/-- C6 (amended): sequentially, a request above the available balance fails
with InsufficientBalance and inserts nothing, and a request within it inserts
exactly one 'processing' withdrawal of the requested amount — but the checks
and the insert are separate statements, not one transaction (see the
counterexample). -/
theorem C6_sequential_withdrawal_behavior (db : DB) (w : Nat) (m acc : String)
    (amt : Int) (hm : m ∈ withdrawalMethods) (hacc : acc ≠ "") (hamt : 0 < amt) :
    (createWithdrawalAvailable db w < amt →
      createWithdrawal db w m acc amt = (⟨400, "Insufficient balance"⟩, db)) ∧
    (amt ≤ createWithdrawalAvailable db w →
      createWithdrawal db w m acc amt =
        (⟨201, "Withdrawal request submitted"⟩, sqlInsertWithdrawal db w m acc amt)) := by
  have hval : ¬ (acc = "" ∨ amt = 0 ∨ amt ≤ 0) := by
    push_neg
    exact ⟨hacc, by omega, by omega⟩
  constructor
  · intro hlt
    unfold createWithdrawal
    rw [if_neg (by simpa using hm), if_neg hval, if_pos]
    exact hlt
  · intro hle
    unfold createWithdrawal
    rw [if_neg (by simpa using hm), if_neg hval, if_neg (by omega)]

/-- C6 witness: with a 50-unit balance, a 50-unit request succeeds and
appends exactly the 'processing' row. -/
theorem C6_sequential_withdrawal_behavior_w :
    createWithdrawal plainBalanceDB 10 "bkash" "0123" 50 =
      (⟨201, "Withdrawal request submitted"⟩,
        sqlInsertWithdrawal plainBalanceDB 10 "bkash" "0123" 50) :=
  (C6_sequential_withdrawal_behavior plainBalanceDB 10 "bkash" "0123" 50
    (by decide) (by decide) (by decide)).2 (by decide)

/-- C7: reviewing an evidence record that is not 'pending' fails with 400 and
leaves the store untouched, for approve and reject alike; on a 'pending'
record, approve marks it 'approved' and reject (with non-blank feedback)
marks it 'rejected', each stamping reviewer and verification timestamp and
moving the issue to 'resolved' resp. 'in_progress' through the verification
trigger. -/
theorem C7_proof_review_guarded (db : DB) (now pid adm : Nat)
    (fb : Option String) (fbr : String) (p : IssueProof) (u : User)
    (hp : db.issue_proofs.find? (fun q => q.proof_id = pid) = some p)
    (hfb : strTrim fbr ≠ "")
    (hu : db.users.find? (fun w => w.user_id = adm) = some u) :
    (p.verification_status ≠ "pending" →
      approveProof db now pid adm fb =
        (⟨400, "Cannot approve a proof in this status."⟩, db) ∧
      rejectProof db now pid adm fbr =
        (⟨400, "Cannot reject a proof in this status."⟩, db)) ∧
    (p.verification_status = "pending" → u.user_type = "admin" →
      approveProof db now pid adm fb = (⟨200, "Proof approved successfully"⟩,
        { db with
          issue_proofs := db.issue_proofs.map (fun q =>
            if q.proof_id = pid then
              { p with
                verification_status := "approved"
                admin_feedback := fb
                verified_by := some adm
                verified_at := some now }
            else q)
          issues := db.issues.map (fun i =>
            if i.issue_id = p.issue_id then { i with status := "resolved" } else i) }) ∧
      rejectProof db now pid adm fbr = (⟨200, "Proof rejected successfully with feedback"⟩,
        { db with
          issue_proofs := db.issue_proofs.map (fun q =>
            if q.proof_id = pid then
              { p with
                verification_status := "rejected"
                admin_feedback := some (strTrim fbr)
                verified_by := some adm
                verified_at := some now }
            else q)
          issues := db.issues.map (fun i =>
            if i.issue_id = p.issue_id then { i with status := "in_progress" } else i) })) ∧
    (p.verification_status = "pending" → u.user_type ≠ "admin" →
      approveProof db now pid adm fb = (⟨500, "Failed to approve proof"⟩, db) ∧
      rejectProof db now pid adm fbr = (⟨500, "Failed to reject proof"⟩, db)) := by
  refine ⟨?_, ?_, ?_⟩
  · intro hnp
    constructor
    · simp only [approveProof, hp]
      rw [if_pos hnp]
    · simp only [rejectProof, hp]
      rw [if_neg hfb, if_pos hnp]
  · intro hpend hut
    have hnp : ¬ p.verification_status ≠ "pending" := by simp [hpend]
    constructor
    · simp only [approveProof, hp]
      rw [if_neg hnp]
      rw [trgProofVerifiedAdminCheck_ok db _ adm u rfl hu hut,
        fkProofsVerifiedBy_ok db _ adm u rfl hu]
      simp [trgProofVerified]
    · simp only [rejectProof, hp]
      rw [if_neg hfb, if_neg hnp]
      rw [trgProofVerifiedAdminCheck_ok db _ adm u rfl hu hut,
        fkProofsVerifiedBy_ok db _ adm u rfl hu]
      simp [trgProofVerified]
  · intro hpend hut
    have hnp : ¬ p.verification_status ≠ "pending" := by simp [hpend]
    constructor
    · simp only [approveProof, hp]
      rw [if_neg hnp]
      rw [trgProofVerifiedAdminCheck_raise db _ adm u rfl hu hut]
    · simp only [rejectProof, hp]
      rw [if_neg hfb, if_neg hnp]
      rw [trgProofVerifiedAdminCheck_raise db _ adm u rfl hu hut]

/-- C7 witness: the admin (user 99) approving the pending proof of fixture
issue 2 answers 200. -/
theorem C7_proof_review_guarded_w :
    (approveProof pendingProofDB 200 3 99 (some "good")).1.status = 200 := by
  have h := ((C7_proof_review_guarded pendingProofDB 200 3 99 (some "good") "bad"
    ⟨3, 2, 10, "pending", none, none, none⟩ ⟨99, "admin"⟩
    (by decide) (by decide) (by decide)).2.1 rfl rfl).1
  rw [h]

/-- C7 (counterexample): a non-admin reviewer (worker 10) reviewing the
pending proof makes the UPDATE raise through trg_proof_verified_admin_check:
both calls answer 500 and leave proof and issue untouched, where the claim's
unqualified "when the status is 'pending', approve sets it to 'approved'"
promises success. -/
theorem C7_nonadmin_review_errors :
    (approveProof pendingProofDB 200 3 10 (some "good")).1.status = 500 ∧
    (approveProof pendingProofDB 200 3 10 (some "good")).2 = pendingProofDB ∧
    (rejectProof pendingProofDB 200 3 10 "bad").1.status = 500 ∧
    (rejectProof pendingProofDB 200 3 10 "bad").2 = pendingProofDB := by
  decide

/-- C1: accepting a submitted application does set the winner to 'accepted',
assign the issue to its worker and leave no rival 'submitted' — but the rival
is rejected by the database trigger, which writes no feedback: the
controller's own rejection statement filters on application statuses
'applied'/'under_review' that the schema forbids, so the claimed standard
feedback message is never attached.  Evaluated at an issue with two submitted
bids. -/
theorem C1_cascade_leaves_rival_feedback_null :
    (acceptIssueApplication acceptCascadeDB 100 1 1 99 (some "ok")).1.status = 200 ∧
    (acceptIssueApplication acceptCascadeDB 100 1 1 99 (some "ok")).2.applications =
      [⟨1, 1, 10, 50, "2d", "fix", "accepted", some "ok", some 99, some 100⟩,
       ⟨2, 1, 11, 60, "1d", "me", "rejected", none, some 99, some 100⟩] ∧
    (acceptIssueApplication acceptCascadeDB 100 1 1 99 (some "ok")).2.issues =
      [⟨1, 5, "assigned", some 10⟩] := by
  decide

/-- C2 (counterexample): a sequence of embedded operations — apply, accept,
direct status re-open, apply, accept — leaves two applications on issue 1
both 'accepted', because `acceptIssueApplication` checks only the target
application's own status. -/
theorem C2_two_accepted_reachable :
    (applyForIssue raceDB0 1 10 50 "2d" "fix").1.status = 201 ∧
    (acceptIssueApplication raceDB1 100 1 1 99 (some "ok")).1.status = 200 ∧
    (updateIssueStatus raceDB2 1 "submitted").1.status = 200 ∧
    (applyForIssue raceDB3 1 11 60 "1d" "me").1.status = 201 ∧
    (acceptIssueApplication raceDB4 101 1 2 99 (some "ok2")).1.status = 200 ∧
    acceptedCount raceDB5 1 = 2 := by
  decide

/-- C3 (counterexample): `updateIssueStatus` happily moves a closed issue
back to 'submitted', although no §4.1 edge allows it. -/
theorem C3_closed_to_submitted_jump :
    (updateIssueStatus closedIssueDB 8 "submitted").1.status = 200 ∧
    (updateIssueStatus closedIssueDB 8 "submitted").2.issues =
      [⟨8, 5, "submitted", some 10⟩] ∧
    specAllowedEdge "closed" "submitted" = false := by
  decide

/-- C4 (counterexample): `createPayments` never checks that the issue is
resolved — paying an 'assigned' issue succeeds, inserts the completed
payment and closes the issue, where the claim requires an IssueNotResolved
failure with no insert. -/
theorem C4_pays_unresolved_issue :
    unresolvedPayDB.issues = [⟨7, 5, "assigned", some 10⟩] ∧
    (createPayments unresolvedPayDB txFixture [payItem7]).1.status = 201 ∧
    (createPayments unresolvedPayDB txFixture [payItem7]).2.payments =
      [⟨7, 5, 10, 50, "bkash", "completed", "TX-0"⟩] ∧
    (createPayments unresolvedPayDB txFixture [payItem7]).2.issues =
      [⟨7, 5, "closed", some 10⟩] := by
  decide

/-- C5 (counterexample): with 50 completed earnings and 60 already
withdrawn, the spec formula yields -10 but the code clamps the reported
balance to 0. -/
theorem C5_balance_clamped_at_zero :
    getWorkerSummaryCurrentBalance overdrawnDB 10 = 0 ∧
    specComputeBalance overdrawnDB 10 = -10 ∧
    getWorkerSummaryCurrentBalance overdrawnDB 10 ≠ specComputeBalance overdrawnDB 10 := by
  decide

/-- C6 (counterexample): the balance check is not in one transaction with
the insert — under the interleaved schedule both concurrent 50-unit
withdrawals against a 50-unit balance succeed, and the in-flight withdrawal
total then exceeds the completed-payment total. -/
theorem C6_check_act_race_overdraws :
    wRaceResult.phA = .finished ⟨201, "Withdrawal request submitted"⟩ ∧
    wRaceResult.phB = .finished ⟨201, "Withdrawal request submitted"⟩ ∧
    sqlTotalEarnings wRaceResult.db 10 < sqlWithdrawnTotal wRaceResult.db 10 := by
  decide

/-- C8: deleting the only (rejected) application of an 'applied' issue
succeeds but never re-opens the issue: node-postgres returns the COUNT(*)
aggregate as a string and the controller compares it with `=== 0`, so the
revert branch is unreachable and the issue stays 'applied'. -/
theorem C8_delete_never_reopens :
    (deleteApplication deleteRevertDB 4 10).1.status = 200 ∧
    (deleteApplication deleteRevertDB 4 10).2.applications = [] ∧
    (deleteApplication deleteRevertDB 4 10).2.issues = [⟨4, 5, "applied", none⟩] := by
  decide

/-- C9 (counterexample): when a duplicate application exists but the issue
is no longer open, the code answers 400 "Issue is not available for
applications." — not the claimed DuplicateBid conflict — because the
issue-open check runs before the duplicate check. -/
theorem C9_not_open_wins_over_duplicate :
    dupApplyDB.applications.any (fun a => a.issue_id = 3 ∧ a.worker_id = 10) = true ∧
    (applyForIssue dupApplyDB 3 10 40 "1d" "again").1 =
      ⟨400, "Issue is not available for applications."⟩ ∧
    (applyForIssue dupApplyDB 3 10 40 "1d" "again").2 = dupApplyDB := by
  decide

/-- C10: the bulk `createPayments` is all-or-nothing: any response other than
201 leaves the store exactly as it was (no payment inserted, no issue
closed), and a 201 response means exactly one 'completed' Payment row was
appended per input item, each carrying the transaction identifier generated
at its loop index. -/
theorem C10_bulk_payments_all_or_nothing (db : DB) (txg : Nat → String)
    (items : List PaymentItem) :
    ((createPayments db txg items).1.status ≠ 201 →
      (createPayments db txg items).2 = db) ∧
    ((createPayments db txg items).1.status = 201 →
      (createPayments db txg items).2.payments =
        db.payments ++ paymentRowsOf txg 0 items ∧
      (paymentRowsOf txg 0 items).length = items.length ∧
      ∀ row ∈ paymentRowsOf txg 0 items, row.payment_status = "completed") := by
  unfold createPayments
  split
  · constructor
    · intro _
      rfl
    · intro h
      simp at h
  · constructor
    · exact (createPaymentsGo_spec db txg items db 0).1
    · intro h
      exact ⟨(createPaymentsGo_spec db txg items db 0).2 h,
        paymentRowsOf_length txg items 0, paymentRowsOf_completed txg items 0⟩

/-- C10 witness: the fixture batch of one item appends exactly its row. -/
theorem C10_bulk_payments_all_or_nothing_w :
    (createPayments resolvedPayDB txFixture [payItem6]).2.payments =
      resolvedPayDB.payments ++ paymentRowsOf txFixture 0 [payItem6] :=
  ((C10_bulk_payments_all_or_nothing resolvedPayDB txFixture [payItem6]).2 (by decide)).1

/-- C4 (amended): `createPayments` never checks that the issue is resolved.
For a single well-formed item: when a Payment already exists for the issue
the whole call fails through the unique constraint (a rolled-back generic
store failure, not a distinct AlreadyPaid error) and the store is unchanged;
when none exists, the call succeeds from any issue status, appending the
'completed' Payment and closing the issue via the trigger. -/
theorem C4_record_payment_behavior (db : DB) (txg : Nat → String) (p : PaymentItem)
    (iid wid cid : Nat) (amt : Int)
    (hii : p.issueId = some iid) (hwi : p.workerId = some wid)
    (hci : p.citizenId = some cid) (hai : p.amount = some amt)
    (hiz : iid ≠ 0) (hwz : wid ≠ 0) (hcz : cid ≠ 0) (haz : 0 < amt)
    (hm : p.method.getD "bkash" ∈ validPaymentMethods)
    (hissue : db.issues.any (fun i => i.issue_id = iid) = true)
    (hcit : db.users.any (fun u => u.user_id = cid) = true)
    (hwork : db.users.any (fun u => u.user_id = wid) = true) :
    (db.payments.any (fun q => q.issue_id = iid) = true →
      createPayments db txg [p] =
        (⟨500, "Failed to process payments: duplicate key value violates unique constraint uk_payments_issue"⟩, db)) ∧
    (db.payments.any (fun q => q.issue_id = iid) = false →
      createPayments db txg [p] = (⟨201, "Payments processed successfully"⟩,
        { db with
          issues := db.issues.map (fun i =>
            if i.issue_id = iid then { i with status := "closed" } else i)
          payments := db.payments ++
            [newPaymentRow iid cid wid amt (p.method.getD "bkash") (txg 0)] })) := by
  have hguard : ¬ (jsFalsyNat p.issueId = true ∨ jsFalsyNat p.workerId = true ∨
      jsFalsyNat p.citizenId = true ∨ jsFalsyInt p.amount = true) := by
    rw [hii, hwi, hci, hai, jsFalsyNat_some iid hiz, jsFalsyNat_some wid hwz,
      jsFalsyNat_some cid hcz, jsFalsyInt_some amt (by omega)]
    simp
  constructor
  · intro hdup
    simp only [createPayments, List.isEmpty_cons, createPaymentsGo]
    rw [if_neg (by simp), if_neg hguard]
    have hins : sqlInsertPayment db (p.issueId.getD 0) (p.citizenId.getD 0)
        (p.workerId.getD 0) (p.amount.getD 0) (p.method.getD "bkash") (txg 0) =
        .error ⟨"23505", "duplicate key value violates unique constraint uk_payments_issue"⟩ := by
      rw [hii, hwi, hci, hai]
      unfold sqlInsertPayment
      rw [if_pos (by simpa using hdup)]
    rw [hins]
    rfl
  · intro hdup
    simp only [createPayments, List.isEmpty_cons, createPaymentsGo]
    rw [if_neg (by simp), if_neg hguard]
    have hins : sqlInsertPayment db (p.issueId.getD 0) (p.citizenId.getD 0)
        (p.workerId.getD 0) (p.amount.getD 0) (p.method.getD "bkash") (txg 0) =
        .ok { db with
          issues := db.issues.map (fun i =>
            if i.issue_id = iid then { i with status := "closed" } else i)
          payments := db.payments ++
            [newPaymentRow iid cid wid amt (p.method.getD "bkash") (txg 0)] } := by
      rw [hii, hwi, hci, hai]
      unfold sqlInsertPayment
      rw [if_neg (by simpa using hdup), if_neg (by simpa using hissue),
        if_neg (by simpa using hcit), if_neg (by simpa using hwork),
        if_neg (by simpa using haz), if_neg (by simpa using hm)]
      simp [trgPaymentCompleted, newPaymentRow]
    rw [hins]

/-- C4 witness: paying the resolved fixture issue 6 succeeds, appends the
completed payment, and closes the issue. -/
theorem C4_record_payment_behavior_w :
    createPayments resolvedPayDB txFixture [payItem6] =
      (⟨201, "Payments processed successfully"⟩,
        { resolvedPayDB with
          issues := resolvedPayDB.issues.map (fun i =>
            if i.issue_id = 6 then { i with status := "closed" } else i)
          payments := resolvedPayDB.payments ++
            [newPaymentRow 6 5 10 50 "bkash" (txFixture 0)] }) :=
  (C4_record_payment_behavior resolvedPayDB txFixture payItem6 6 10 5 50
    rfl rfl rfl rfl (by decide) (by decide) (by decide) (by decide) (by decide)
    (by decide) (by decide) (by decide)).2 (by decide)

/-- C9 (amended): `applyForIssue` checks the issue's openness first — when
the issue is not 'submitted'/'applied' the call fails IssueNotOpen even if a
duplicate row exists (see the counterexample); on an open issue, a duplicate
(issue, fixer) row yields the 409 conflict, and otherwise one 'submitted'
Application is inserted and the issue is moved to 'applied' exactly when it
was 'submitted', both inside one transaction. -/
theorem C9_submit_bid_behavior (db : DB) (iid wid : Nat) (cost : Int)
    (t pr : String) (issue : Issue) (uw : User)
    (hcost : 0 < cost) (ht : t ≠ "") (hpr : strTrim pr ≠ "")
    (hfind : db.issues.find? (fun i => i.issue_id = iid) = some issue)
    (hu : db.users.find? (fun u => u.user_id = wid) = some uw)
    (huw : uw.user_type = "worker") :
    (¬ (issue.status = "submitted" ∨ issue.status = "applied") →
      applyForIssue db iid wid cost t pr =
        (⟨400, "Issue is not available for applications."⟩, db)) ∧
    ((issue.status = "submitted" ∨ issue.status = "applied") →
      (db.applications.any (fun a => a.issue_id = iid ∧ a.worker_id = wid) = true →
        applyForIssue db iid wid cost t pr =
          (⟨409, "You have already applied for this issue"⟩, db)) ∧
      (db.applications.any (fun a => a.issue_id = iid ∧ a.worker_id = wid) = false →
        applyForIssue db iid wid cost t pr =
          (⟨201, "Application submitted successfully!"⟩,
            if issue.status = "submitted" then
              sqlSetIssueApplied
                { db with applications := db.applications ++
                    [newApplicationRow db iid wid cost (strTrim t) (strTrim pr)] } iid
            else
              { db with applications := db.applications ++
                  [newApplicationRow db iid wid cost (strTrim t) (strTrim pr)] }))) := by
  have hpr0 : pr ≠ "" := by
    intro h0
    apply hpr
    rw [h0]
    decide
  have hfalsy : ¬ (cost = 0 ∨ t = "" ∨ pr = "") := by
    push_neg
    exact ⟨by omega, ht, hpr0⟩
  have hcost' : ¬ cost ≤ 0 := by omega
  constructor
  · intro hno
    simp only [applyForIssue, hfind]
    rw [if_neg hfalsy, if_neg hcost', if_neg hpr, if_pos hno]
  · intro hopen
    have hno : ¬ ¬ (issue.status = "submitted" ∨ issue.status = "applied") :=
      not_not_intro hopen
    constructor
    · intro hdup
      simp only [applyForIssue, hfind]
      rw [if_neg hfalsy, if_neg hcost', if_neg hpr, if_neg hno, if_pos hdup]
    · intro hdup
      have hvalid : trgApplicationsInsertValidate db
          (newApplicationRow db iid wid cost (strTrim t) (strTrim pr)) = .ok () := by
        unfold trgApplicationsInsertValidate newApplicationRow
        rw [hu, hfind]
        simp only [Option.any_some]
        rw [if_neg (by simp [huw]), if_neg (by simp [hopen])]
      have hins : sqlInsertApplication db iid wid cost (strTrim t) (strTrim pr) =
          .ok { db with applications := db.applications ++
            [newApplicationRow db iid wid cost (strTrim t) (strTrim pr)] } := by
        unfold sqlInsertApplication
        rw [hvalid]
        have hany_issue : db.issues.any (fun i => i.issue_id = iid) = true := by
          refine List.any_eq_true.mpr ⟨issue, List.mem_of_find?_eq_some hfind, ?_⟩
          simpa using List.find?_some hfind
        have hany_user : db.users.any (fun u => u.user_id = wid) = true := by
          refine List.any_eq_true.mpr ⟨uw, List.mem_of_find?_eq_some hu, ?_⟩
          simpa using List.find?_some hu
        rw [if_neg (by simp only [hdup]; decide),
          if_neg (by simp only [hany_issue]; decide),
          if_neg (by simp only [hany_user]; decide), if_neg (by omega)]
      simp only [applyForIssue, hfind, hins]
      rw [if_neg hfalsy, if_neg hcost', if_neg hpr, if_neg hno,
        if_neg (by simp only [hdup]; decide)]

/-- C9 witness: worker 10's first bid on the fresh 'submitted' issue answers
201. -/
theorem C9_submit_bid_behavior_w :
    (applyForIssue raceDB0 1 10 50 "2d" "fix").1.status = 201 := by
  have h := ((C9_submit_bid_behavior raceDB0 1 10 50 "2d" "fix"
    ⟨1, 5, "submitted", none⟩ ⟨10, "worker"⟩ (by decide) (by decide) (by decide)
    (by decide) (by decide) (by decide)).2 (by decide)).2 (by decide)
  rw [h]

/-- C3 (amended): under every embedded operation — the subsystem operations
and the two direct update endpoints alike — every issue's status stays within
the seven defined values (updateIssueStatus validates membership and the
table CHECK stops updateIssue); the transitions, however, are not confined to
the §4.1 edges: the direct endpoints may jump between any two of the seven
values (see the counterexample). -/
theorem C3_statuses_always_valid (db0 db : DB) (h0 : StatusWF db0)
    (h : Relation.ReflTransGen SysStep db0 db) : StatusWF db := by
  induction h with
  | refl => exact h0
  | tail hab hbc ih =>
    rcases hbc with ⟨op, rfl⟩
    exact statusWF_runOp _ op ih

/-- C3 witness: the store reached by re-opening the closed fixture issue
still carries only valid statuses. -/
theorem C3_statuses_always_valid_w :
    StatusWF (runOp closedIssueDB (Op.opUpdateIssueStatus 8 "submitted")).2 :=
  C3_statuses_always_valid closedIssueDB _ (by decide)
    (Relation.ReflTransGen.single ⟨Op.opUpdateIssueStatus 8 "submitted", rfl⟩)

/-- C2 (amended): under the subsystem operations — every embedded operation
except the two direct issue-update endpoints `updateIssueStatus` and
`updateIssue` — every store satisfying the application invariant keeps at
most one 'accepted' application per issue; in particular no sequence of
`acceptIssueApplication` calls can leave two applications on one issue both
'accepted'.  (With the direct endpoints included this fails: see the
counterexample.) -/
theorem C2_at_most_one_accepted (db0 db : DB) (h0 : AppInv db0)
    (h : Relation.ReflTransGen SubsystemStep db0 db) (iid : Nat) :
    acceptedCount db iid ≤ 1 := by
  have hinv : AppInv db := by
    induction h with
    | refl => exact h0
    | tail hab hbc ih =>
      rcases hbc with ⟨op, hop, rfl⟩
      exact appInv_runOp _ op hop ih
  by_cases hex : ∃ a ∈ db.applications, a.issue_id = iid ∧ a.status = "accepted"
  · obtain ⟨a, ha, hai, has⟩ := hex
    have h1 := (hinv.2.2 a ha has).1
    rw [hai] at h1
    exact h1
  · have h0' : acceptedCount db iid = 0 := by
      unfold acceptedCount
      rw [List.countP_eq_zero]
      intro a ha hc
      simp only [decide_eq_true_eq] at hc
      exact hex ⟨a, ha, hc.1, hc.2⟩
    omega

/-- C2 witness: after worker 10 applies and is accepted on the fresh fixture
issue, that issue carries at most one accepted application. -/
theorem C2_at_most_one_accepted_w :
    acceptedCount raceDB2 1 ≤ 1 :=
  C2_at_most_one_accepted raceDB0 raceDB2 (by decide)
    (Relation.ReflTransGen.tail
      (Relation.ReflTransGen.single ⟨Op.opApply 1 10 50 "2d" "fix", rfl, rfl⟩)
      ⟨Op.opAccept 100 1 1 99 (some "ok"), rfl, rfl⟩) 1

end LocalFix
